import Mathlib

/-!
# Bias audit dashboard: the metrics core of `src/bias-dashboard.jsx`

A shallow embedding of the computational part of the dashboard
(`biasColor`, `clamp`, `generateDataset`, `groupMetrics`, `withDI`, the label
of `DIBadge`, and `handleCSV` with the state it updates) together with
theorems about it.

Numeric model. A JavaScript number is modelled by an exact rational (`ℚ`).
`NaN` is represented where the program can produce it, as `none` in the
average score computed over plain objects; `Infinity` and the representation
error of binary floating point are outside the model.
`Number.prototype.toFixed` followed by unary `+` is modelled by its ECMAScript
definition on the exact value: the integer `n` for which `n / 10^f - x` is
closest to zero, the larger one on a tie, applied to `|x|` with the sign
restored. When the exact value lies half way between two decimals, the binary
double that the program rounds may lie on either side, so the theorems on
rounded values state that the result is one of the nearest decimals
(`RoundedTo`) and do not say which; the concrete evaluations in this file are
at values that are not such ties.

Randomness. Every `Math.random()` outcome and the Box-Muller deviate are
inputs of the model (`Draw`), so that the theorems quantify over every outcome
of the random draws.
-/

namespace BiasApp

/-! ## JavaScript values -/

/-- A JavaScript value as it occurs in a record field or a category list.
`inherited name` is the object that a plain object inherits under `name` from
`Object.prototype` (a built-in function, or the prototype itself for
`__proto__`). -/
inductive JsVal where
  | undefined : JsVal
  | bool (b : Bool) : JsVal
  | num (q : ℚ) : JsVal
  | str (s : String) : JsVal
  | inherited (name : String) : JsVal
  deriving DecidableEq, Repr

/-- The property names of `Object.prototype`, which every plain object
inherits. -/
def objectPrototypeNames : List String :=
  ["constructor", "__defineGetter__", "__defineSetter__", "hasOwnProperty",
   "__lookupGetter__", "__lookupSetter__", "isPrototypeOf", "propertyIsEnumerable",
   "toString", "valueOf", "__proto__", "toLocaleString"]

/-- Strict equality `a === b` on the values of the model (no `NaN`, so it is
structural equality). -/
def strictEq (a b : JsVal) : Bool := decide (a = b)

/-! ## Palette (`const C`) -/

namespace C

def terracotta : String := "#C4622D"
def sage : String := "#6B8F5E"
def amber : String := "#C98B3A"
def textMuted : String := "#A88B78"

end C

/-! ## Numeric helpers -/

/-- The number `+x.toFixed(f)` for `x ≥ 0`: the integer `n` with `n / 10^f`
closest to `x` (the larger `n` on a tie), divided by `10^f`. -/
def toFixedNonneg (x : ℚ) (f : ℕ) : ℚ :=
  (Rat.floor (x * 10 ^ f + 1 / 2) : ℚ) / 10 ^ f

/-- The number `+x.toFixed(f)` computed on the exact value `x`: `toFixed`
formats `-x` and prefixes a minus sign when `x < 0`. The program applies it
to the binary double nearest to `x`, which at an exact decimal tie may round
to the other neighbour; see `RoundedTo`. -/
def toFixed (x : ℚ) (f : ℕ) : ℚ :=
  if x < 0 then -toFixedNonneg (-x) f else toFixedNonneg x f

/-- `Math.round(x)`: the integer closest to `x`, ties going up. -/
def mathRound (x : ℚ) : ℚ := (Rat.floor (x + 1 / 2) : ℚ)

/-- `Math.floor(x)` as a natural-number array index (used on non-negative
values only). -/
def mathFloorIdx (x : ℚ) : ℕ := (Rat.floor x).toNat

/-- `const clamp = (v, lo = 0, hi = 100) => Math.max(lo, Math.min(hi, v))`. -/
def clamp (v : ℚ) (lo : ℚ := 0) (hi : ℚ := 100) : ℚ := max lo (min hi v)

/-! ## Fairness tier colour -/

/-- `biasColor(di)`; `di` is `null` (`none`) or a number. `!di` is true for
`null` and for the number `0`. -/
def biasColor (di : Option ℚ) : String :=
  match di with
  | none => C.textMuted
  | some d =>
    if d = 0 then C.textMuted
    else if d ≥ 0.8 ∧ d ≤ 1.25 then C.sage
    else if (d ≥ 0.65 ∧ d < 0.8) ∨ (d > 1.25 ∧ d ≤ 1.5) then C.amber
    else C.terracotta

/-! ## Records and the synthetic data generator -/

/-- A record as built by the object literal of `generateDataset`:
`{ id, race, gender, ageGroup, riskScore, highRisk, actualBad }`. -/
structure Record where
  id : ℕ
  race : String
  gender : String
  ageGroup : String
  riskScore : ℚ
  highRisk : Bool
  actualBad : Bool
  deriving DecidableEq, Repr

/-- Property access `d[key]` on a record: one of its seven own properties,
else the property inherited from `Object.prototype`, else `undefined`. -/
def Record.get (d : Record) (key : String) : JsVal :=
  if key = "id" then JsVal.num d.id
  else if key = "race" then JsVal.str d.race
  else if key = "gender" then JsVal.str d.gender
  else if key = "ageGroup" then JsVal.str d.ageGroup
  else if key = "riskScore" then JsVal.num d.riskScore
  else if key = "highRisk" then JsVal.bool d.highRisk
  else if key = "actualBad" then JsVal.bool d.actualBad
  else if key ∈ objectPrototypeNames then JsVal.inherited key
  else JsVal.undefined

def RACES : List String := ["White", "Black", "Hispanic", "Asian", "Other"]
def GENDERS : List String := ["Male", "Female", "Non-binary"]
def AGE_GROUPS : List String := ["18-25", "26-35", "36-50", "51-65", "65+"]

/-- Table `rBase` of `generateDataset`. A key outside the table (which
`RACES[...]` never produces for a draw in `[0, 1)`) is mapped to `0` here. -/
def rBase (race : String) : ℚ :=
  if race = "White" then 45
  else if race = "Black" then 63
  else if race = "Hispanic" then 59
  else if race = "Asian" then 40
  else if race = "Other" then 55
  else 0

/-- Table `gBase` of `generateDataset` (same convention as `rBase`). -/
def gBase (gender : String) : ℚ :=
  if gender = "Male" then 50
  else if gender = "Female" then 48
  else if gender = "Non-binary" then 57
  else 0

/-- Table `aBase` of `generateDataset` (same convention as `rBase`). -/
def aBase (ageGroup : String) : ℚ :=
  if ageGroup = "18-25" then 66
  else if ageGroup = "26-35" then 52
  else if ageGroup = "36-50" then 44
  else if ageGroup = "51-65" then 48
  else if ageGroup = "65+" then 55
  else 0

/-- The random outcomes consumed while one record is generated: the three
`Math.random()` values that pick the categories, the standard deviate
`Math.sqrt(-2 * Math.log(u)) * Math.cos(2 * Math.PI * v)` computed by
`gaussianRandom` from the non-zero `u`, `v` on which its two loops exit, and
the `Math.random()` value compared against the `actualBad` probability. -/
structure Draw where
  uRace : ℚ
  uGender : ℚ
  uAge : ℚ
  z : ℚ
  uBad : ℚ
  deriving Repr

/-- `gaussianRandom(mean, std)`, given the value `z` of its Box-Muller
deviate: `mean + std * z`. -/
def gaussianRandom (z : ℚ) (mean : ℚ := 0) (std : ℚ := 1) : ℚ := mean + std * z

/-- The callback `(_, id) => { ... }` of `generateDataset`. -/
def generateRecord (id : ℕ) (w : Draw) : Record :=
  let race := RACES.getD (mathFloorIdx (w.uRace * RACES.length)) ""
  let gender := GENDERS.getD (mathFloorIdx (w.uGender * GENDERS.length)) ""
  let ageGroup := AGE_GROUPS.getD (mathFloorIdx (w.uAge * AGE_GROUPS.length)) ""
  let base := (rBase race + gBase gender + aBase ageGroup) / 3
  let riskScore := clamp (mathRound (base + gaussianRandom w.z 0 8))
  { id := id, race := race, gender := gender, ageGroup := ageGroup,
    riskScore := riskScore, highRisk := decide (riskScore ≥ 65),
    actualBad := decide (w.uBad < base / 200 + 0.15) }

/-- `generateDataset(n)`: `Array.from({ length: n }, (_, id) => ...)`, where
`draws id` holds the random outcomes of the call for index `id`. -/
def generateDataset (n : ℕ) (draws : ℕ → Draw) : List Record :=
  (List.range n).map (fun id => generateRecord id (draws id))

/-! ## Group metrics and disparate impact -/

/-- A row returned by `groupMetrics`. -/
structure GroupStat where
  group : JsVal
  avgScore : ℚ
  highRiskRate : ℚ
  fpr : ℚ
  fnr : ℚ
  count : ℕ
  deriving DecidableEq, Repr

/-- A row returned by `withDI`: `{ ...m, di }`, `di` being `null` or a number. -/
structure GroupStatDI extends GroupStat where
  di : Option ℚ
  deriving DecidableEq, Repr

/-- The callback `group => { ... }` of `groupMetrics` on generated records,
whose `riskScore` is a number and whose flags are booleans; `none` is `null`.
`groupRowObj` below is the callback on arbitrary plain objects, and
`groupRowObj_toObject` shows that it computes this row on generated
records. -/
def groupRow (data : List Record) (key : String) (group : JsVal) : Option GroupStat :=
  let s := data.filter (fun d => strictEq (d.get key) group)
  if s.length = 0 then none
  else
    let avg : ℚ := s.foldl (fun a d => a + d.riskScore) 0 / s.length
    let hrr : ℚ := ((s.filter (fun d => d.highRisk)).length : ℚ) / s.length
    let tp := (s.filter (fun d => d.highRisk && d.actualBad)).length
    let fp := (s.filter (fun d => d.highRisk && !d.actualBad)).length
    let fn := (s.filter (fun d => !d.highRisk && d.actualBad)).length
    let tn := (s.filter (fun d => !d.highRisk && !d.actualBad)).length
    some
      { group := group
        avgScore := toFixed avg 1
        highRiskRate := toFixed (hrr * 100) 1
        fpr := toFixed (if fp + tn > 0 then (fp : ℚ) / ((fp + tn : ℕ) : ℚ) * 100 else 0) 1
        fnr := toFixed (if tp + fn > 0 then (fn : ℚ) / ((tp + fn : ℕ) : ℚ) * 100 else 0) 1
        count := s.length }

/-- `groupMetrics(data, key, groups)` on generated records:
`groups.map(...).filter(Boolean)`. -/
def groupMetrics (data : List Record) (key : String) (groups : List JsVal) : List GroupStat :=
  (groups.map (groupRow data key)).reduceOption

/-- The `di` expression of `withDI` for a row `m`, `ref` being the result of
`metrics.find(...)` (`none` is `undefined`). -/
def diOf (ref : Option GroupStat) (m : GroupStat) : Option ℚ :=
  match ref with
  | none => none
  | some r => if r.highRiskRate > 0 then some (toFixed (m.highRiskRate / r.highRiskRate) 2) else none

/-- `withDI(metrics, refGroup)`. -/
def withDI (metrics : List GroupStat) (refGroup : JsVal) : List GroupStatDI :=
  let ref := metrics.find? (fun m => strictEq m.group refGroup)
  metrics.map (fun m => { toGroupStat := m, di := diOf ref m })

/-! ## CSV ingestion (the row construction of `handleCSV`) -/

/-- A plain JavaScript object: its own properties in insertion order. -/
abbrev JsObject := List (String × JsVal)

/-- Property read `o[k]`: the own property if there is one, else the
property inherited from `Object.prototype`, else `undefined`. -/
def JsObject.get (o : JsObject) (k : String) : JsVal :=
  match o with
  | [] => if k ∈ objectPrototypeNames then JsVal.inherited k else JsVal.undefined
  | (k', v) :: rest => if k' = k then v else JsObject.get rest k

/-- Writing an own data property: overwrites an existing one in place,
otherwise appends a new one. -/
def JsObject.setOwn (o : JsObject) (k : String) (v : JsVal) : JsObject :=
  match o with
  | [] => [(k, v)]
  | (k', v') :: rest => if k' = k then (k, v) :: rest else (k', v') :: JsObject.setOwn rest k v

/-- Property write `o[k] = v` for a primitive `v` (the values that
`handleCSV` writes are `undefined`, booleans, numbers and strings). The name
`__proto__` is an accessor of `Object.prototype` whose setter ignores a
primitive, so nothing is stored; every other name becomes an own property. -/
def JsObject.set (o : JsObject) (k : String) (v : JsVal) : JsObject :=
  if k = "__proto__" then o else JsObject.setOwn o k v

/-- White space and line terminators removed by `String.prototype.trim`. -/
def isJsWhiteSpace (c : Char) : Bool :=
  let n := c.toNat
  n = 0x09 || n = 0x0A || n = 0x0B || n = 0x0C || n = 0x0D || n = 0x20 || n = 0xA0 ||
  n = 0x1680 || (0x2000 ≤ n && n ≤ 0x200A) || n = 0x2028 || n = 0x2029 || n = 0x202F ||
  n = 0x205F || n = 0x3000 || n = 0xFEFF

/-- `s.trim()` on the characters of a string. -/
def jsTrim (s : List Char) : List Char :=
  ((s.dropWhile isJsWhiteSpace).reverse.dropWhile isJsWhiteSpace).reverse

/-- `s.split(sep)` for a one-character separator: always at least one piece. -/
def jsSplit (sep : Char) : List Char → List (List Char)
  | [] => [[]]
  | c :: cs =>
    if c = sep then [] :: jsSplit sep cs
    else
      match jsSplit sep cs with
      | [] => [[c]]
      | piece :: pieces => (c :: piece) :: pieces

/-- The relation `v >= c` of JavaScript for a number `c`; `toNumber` is the
built-in string-to-number conversion, `none` standing for `NaN`. `undefined`
converts to `NaN`, and every comparison with `NaN` is false; an inherited
built-in object converts to a string that is no number, hence to `NaN`. -/
def jsGe (toNumber : String → Option ℚ) (v : JsVal) (c : ℚ) : Bool :=
  match v with
  | JsVal.undefined => false
  | JsVal.inherited _ => false
  | JsVal.bool b => decide ((if b then (1 : ℚ) else 0) ≥ c)
  | JsVal.num q => decide (q ≥ c)
  | JsVal.str s =>
    match toNumber s with
    | none => false
    | some q => decide (q ≥ c)

/-- The cell expression `isNaN(vals[i]) ? vals[i]?.trim() : +vals[i]`, where
`none` is an absent `vals[i]` (`undefined`). -/
def csvCell (toNumber : String → Option ℚ) (val : Option (List Char)) : JsVal :=
  match val with
  | none => JsVal.undefined
  | some s =>
    match toNumber (String.mk s) with
    | none => JsVal.str (String.mk (jsTrim s))
    | some q => JsVal.num q

/-- The callback `line => { ... return row; }` of `handleCSV`; `u` is the
outcome of its `Math.random()` call. -/
def csvRow (toNumber : String → Option ℚ) (headers : List String) (line : List Char) (u : ℚ) :
    JsObject :=
  let vals := jsSplit ',' line
  let row : JsObject :=
    headers.enum.foldl (fun row hi => JsObject.set row hi.2 (csvCell toNumber (vals.get? hi.1))) []
  let row := JsObject.set row "highRisk" (JsVal.bool (jsGe toNumber (JsObject.get row "riskScore") 65))
  JsObject.set row "actualBad" (JsVal.bool (decide (u < 0.25)))

/-- The value `rows` computed by `handleCSV` from the text of the file;
`rnd i` is the outcome of `Math.random()` for the `i`-th data line. -/
def csvRows (toNumber : String → Option ℚ) (text : List Char) (rnd : ℕ → ℚ) : List JsObject :=
  let lines := jsSplit '\n' (jsTrim text)
  let headers := (jsSplit ',' (lines.headD [])).map (fun h => String.mk (jsTrim h))
  (lines.drop 1).enum.map (fun il => csvRow toNumber headers il.2 (rnd il.1))

/-- The constant `lines` of `handleCSV`: `ev.target.result.trim().split("\n")`. -/
def csvLines (text : List Char) : List (List Char) := jsSplit '\n' (jsTrim text)

/-- The constant `headers` of `handleCSV`:
`lines[0].split(",").map(h => h.trim())`. -/
def csvHeaders (text : List Char) : List String :=
  (jsSplit ',' ((csvLines text).headD [])).map (fun h => String.mk (jsTrim h))

/-! ## Application state and the upload handler -/

/-- The two pieces of component state that decide the active dataset:
`data` (generated) and `uploadedData` (`none` is `null`). -/
structure AppState where
  data : List Record
  uploadedData : Option (List JsObject)
  deriving DecidableEq, Repr

/-- A generated record seen as a plain object. -/
def Record.toObject (d : Record) : JsObject :=
  [("id", JsVal.num d.id), ("race", JsVal.str d.race), ("gender", JsVal.str d.gender),
   ("ageGroup", JsVal.str d.ageGroup), ("riskScore", JsVal.num d.riskScore),
   ("highRisk", JsVal.bool d.highRisk), ("actualBad", JsVal.bool d.actualBad)]

/-- The constant `active`: `uploadedData || data` (an array, even an empty
one, is truthy). -/
def active (st : AppState) : List JsObject :=
  match st.uploadedData with
  | some rows => rows
  | none => st.data.map Record.toObject

/-- The text passed to `alert` by the `catch` clause of `handleCSV`. -/
def alertMessage : String := "CSV needs columns: race, gender, ageGroup, riskScore"

/-- The value of `ev.target.result` that `r.onload` reads: the text of the
file, which is what `readAsText` delivers, or a value that has no `trim`
method (`null` or an `ArrayBuffer`, the other values this attribute of a
`FileReader` can hold). -/
inductive FileResult where
  | text (s : List Char) : FileResult
  | notText : FileResult
  deriving DecidableEq, Repr

/-- The statements of the `try` block of `r.onload` before `setUploadedData`:
they compute `rows`, or throw. On a text none of the operations used (`trim`,
`split`, `map`, `forEach`, `isNaN`, `?.trim()`, unary `+`, `>=`,
`Math.random`) throws, so the block completes with `rows`; on a value without
a `trim` method the call `ev.target.result.trim()` throws a `TypeError`. -/
def tryRows (toNumber : String → Option ℚ) (result : FileResult) (rnd : ℕ → ℚ) :
    Except Unit (List JsObject) :=
  match result with
  | FileResult.text s => Except.ok (csvRows toNumber s rnd)
  | FileResult.notText => Except.error ()

/-- The effect of `r.onload` given the outcome of computing `rows`: on
completion `setUploadedData(rows)`, on an exception the `catch` clause, which
only calls `alert`. The second component is the alert shown, if any. -/
def onloadResult (st : AppState) (res : Except Unit (List JsObject)) :
    AppState × Option String :=
  match res with
  | Except.ok rows => ({ st with uploadedData := some rows }, none)
  | Except.error _ => (st, some alertMessage)

/-- `handleCSV(e)`, `file` being what the reader delivers for
`e.target.files[0]` (`none` when no file was chosen: `if (!file) return`). -/
def handleCSV (toNumber : String → Option ℚ) (st : AppState) (file : Option FileResult)
    (rnd : ℕ → ℚ) : AppState × Option String :=
  match file with
  | none => (st, none)
  | some result => onloadResult st (tryRows toNumber result rnd)

/-! ## Group metrics on plain objects

`groupMetrics` is called on `active`, which holds generated records or
uploaded rows. An uploaded row is a plain object whose `riskScore` may be a
number, a string or `undefined`, so `a + d.riskScore` is the general `+` of
JavaScript and the average may be `NaN`. -/

/-- Truthiness of a value, as tested by `d.highRisk && ...` and `!d.actualBad`. -/
def truthy : JsVal → Bool
  | JsVal.undefined => false
  | JsVal.bool b => b
  | JsVal.num q => decide (q ≠ 0)
  | JsVal.str s => decide (s ≠ "")
  | JsVal.inherited _ => true

/-- The accumulator `a` of `s.reduce((a, d) => a + d.riskScore, 0)`: a number
(`none` is `NaN`) or, once a string or an object has been added, a string. -/
inductive JsAcc where
  | num (q : Option ℚ) : JsAcc
  | str (s : String) : JsAcc
  deriving DecidableEq, Repr

/-- The built-in conversion of a value to a string; `toStr` is the conversion
of numbers and of built-in objects, which is not modelled. -/
def jsToString (toStr : JsVal → String) (v : JsVal) : String :=
  match v with
  | JsVal.undefined => "undefined"
  | JsVal.bool b => if b then "true" else "false"
  | JsVal.str s => s
  | JsVal.num q => toStr (JsVal.num q)
  | JsVal.inherited n => toStr (JsVal.inherited n)

/-- The expression `a + v`: a string or an object on either side makes it a
concatenation of strings; otherwise both sides are converted to numbers
(`undefined` to `NaN`, `true` to `1`, `false` to `0`) and added. -/
def jsPlus (toStr : JsVal → String) (a : JsAcc) (v : JsVal) : JsAcc :=
  match a with
  | JsAcc.str x => JsAcc.str (x ++ jsToString toStr v)
  | JsAcc.num x =>
    match v with
    | JsVal.str y => JsAcc.str ((match x with | none => "NaN" | some q => toStr (JsVal.num q)) ++ y)
    | JsVal.inherited n =>
      JsAcc.str ((match x with | none => "NaN" | some q => toStr (JsVal.num q))
        ++ toStr (JsVal.inherited n))
    | JsVal.undefined => JsAcc.num none
    | JsVal.bool b => JsAcc.num (x.map (fun q => q + (if b then 1 else 0)))
    | JsVal.num y => JsAcc.num (x.map (fun q => q + y))

/-- The expression `a / n` for a positive integer `n`: a string `a` is first
converted to a number by `toNumber`; `NaN / n` is `NaN`. -/
def jsDivNat (toNumber : String → Option ℚ) (a : JsAcc) (n : ℕ) : Option ℚ :=
  match a with
  | JsAcc.num x => x.map (fun q => q / n)
  | JsAcc.str y => (toNumber y).map (fun q => q / n)

/-- A row returned by `groupMetrics` on plain objects; an `avgScore` of `none`
is `NaN` (`NaN.toFixed(1)` is the string `NaN`, which `+` turns into `NaN`). -/
structure GroupStatObj where
  group : JsVal
  avgScore : Option ℚ
  highRiskRate : ℚ
  fpr : ℚ
  fnr : ℚ
  count : ℕ
  deriving DecidableEq, Repr

/-- The callback `group => { ... }` of `groupMetrics` on plain objects;
`none` is `null`. -/
def groupRowObj (toNumber : String → Option ℚ) (toStr : JsVal → String)
    (data : List JsObject) (key : String) (group : JsVal) : Option GroupStatObj :=
  let s := data.filter (fun d => strictEq (JsObject.get d key) group)
  if s.length = 0 then none
  else
    let avg : Option ℚ :=
      jsDivNat toNumber
        (s.foldl (fun a d => jsPlus toStr a (JsObject.get d "riskScore")) (JsAcc.num (some 0)))
        s.length
    let hrr : ℚ :=
      ((s.filter (fun d => truthy (JsObject.get d "highRisk"))).length : ℚ) / s.length
    let tp := (s.filter (fun d =>
      truthy (JsObject.get d "highRisk") && truthy (JsObject.get d "actualBad"))).length
    let fp := (s.filter (fun d =>
      truthy (JsObject.get d "highRisk") && !truthy (JsObject.get d "actualBad"))).length
    let fn := (s.filter (fun d =>
      !truthy (JsObject.get d "highRisk") && truthy (JsObject.get d "actualBad"))).length
    let tn := (s.filter (fun d =>
      !truthy (JsObject.get d "highRisk") && !truthy (JsObject.get d "actualBad"))).length
    some
      { group := group
        avgScore := avg.map (fun x => toFixed x 1)
        highRiskRate := toFixed (hrr * 100) 1
        fpr := toFixed (if fp + tn > 0 then (fp : ℚ) / ((fp + tn : ℕ) : ℚ) * 100 else 0) 1
        fnr := toFixed (if tp + fn > 0 then (fn : ℚ) / ((tp + fn : ℕ) : ℚ) * 100 else 0) 1
        count := s.length }

/-- A row computed from generated records, seen as a row on plain objects. -/
def GroupStat.toObj (r : GroupStat) : GroupStatObj :=
  { group := r.group, avgScore := some r.avgScore, highRiskRate := r.highRiskRate,
    fpr := r.fpr, fnr := r.fnr, count := r.count }

/-- `groupMetrics(data, key, groups)` on plain objects:
`groups.map(...).filter(Boolean)`. -/
def groupMetricsObj (toNumber : String → Option ℚ) (toStr : JsVal → String)
    (data : List JsObject) (key : String) (groups : List JsVal) : List GroupStatObj :=
  (groups.map (groupRowObj toNumber toStr data key)).reduceOption

/-! ## The badge label (`DIBadge`) -/

/-- The `label` computed by `DIBadge` from `di`; its `color` is
`biasColor(di)`. As in `biasColor`, `!di` is true for `null` and for `0`. -/
def DIBadge.label (di : Option ℚ) : String :=
  match di with
  | none => "—"
  | some d =>
    if d = 0 then "—"
    else if d ≥ 0.8 ∧ d ≤ 1.25 then "Fair"
    else if d > 1.25 ∧ d ≤ 1.5 then "Borderline"
    else "Biased"

/-! ## Specification-side notions -/

/-- The phrase "`y` is `x` rounded to `f` decimals": `y` is a multiple of
`10^(-f)` at distance at most half a unit of the last place from `x`. -/
def RoundedTo (f : ℕ) (x y : ℚ) : Prop :=
  (∃ n : ℤ, y = (n : ℚ) / 10 ^ f) ∧ |y - x| ≤ 1 / (2 * 10 ^ f)

/-- The members of group `g`: the records whose `key` value is `g`. -/
def groupMembers (data : List Record) (key : String) (g : JsVal) : List Record :=
  data.filter (fun d => strictEq (d.get key) g)

/-- The arithmetic mean of `riskScore` over a list of records. -/
def meanScore (s : List Record) : ℚ := (s.map (fun d => d.riskScore)).sum / s.length

/-- The percentage of the records of `s` satisfying `p`. -/
def percentOf (p : Record → Bool) (s : List Record) : ℚ :=
  100 * ((s.filter p).length : ℚ) / (s.length : ℚ)

/-- The members of group `g` among plain objects. -/
def objMembers (data : List JsObject) (key : String) (g : JsVal) : List JsObject :=
  data.filter (fun d => strictEq (JsObject.get d key) g)

/-- Whether a value is a number. -/
def isNum : JsVal → Bool
  | JsVal.num _ => true
  | _ => false

/-- The `riskScore` of an object when it is a number (`0` stands in
otherwise). -/
def scoreOf (d : JsObject) : ℚ :=
  match JsObject.get d "riskScore" with
  | JsVal.num q => q
  | _ => 0

/-- The arithmetic mean of the numeric `riskScore` over a list of objects. -/
def meanScoreObj (s : List JsObject) : ℚ := (s.map scoreOf).sum / s.length

/-- The percentage of the objects of `s` satisfying `p`. -/
def percentWhere (p : JsObject → Bool) (s : List JsObject) : ℚ :=
  100 * ((s.filter p).length : ℚ) / (s.length : ℚ)

/-- The fairness tiers of the specification. -/
inductive Tier where
  | unknown
  | fair
  | borderline
  | discriminatory
  deriving DecidableEq, Repr

/-- The colour in which each tier is rendered. -/
def Tier.color : Tier → String
  | Tier.unknown => C.textMuted
  | Tier.fair => C.sage
  | Tier.borderline => C.amber
  | Tier.discriminatory => C.terracotta

/-- The badge text that names each tier. -/
def Tier.label : Tier → String
  | Tier.unknown => "—"
  | Tier.fair => "Fair"
  | Tier.borderline => "Borderline"
  | Tier.discriminatory => "Biased"

/-- The tier classification in the words of the specification: `null` is
unknown, `0.8 <= di <= 1.25` is fair, `0.65 <= di < 0.8` or `1.25 < di <= 1.5`
is borderline, every other number is discriminatory. -/
def specTier (di : Option ℚ) : Tier :=
  match di with
  | none => Tier.unknown
  | some d =>
    if 0.8 ≤ d ∧ d ≤ 1.25 then Tier.fair
    else if (0.65 ≤ d ∧ d < 0.8) ∨ (1.25 < d ∧ d ≤ 1.5) then Tier.borderline
    else Tier.discriminatory

/-! ## Sample inputs -/

/-- A record of category `race` with the given score and flags. -/
def sampleRecord (race : String) (riskScore : ℚ) (highRisk actualBad : Bool) : Record :=
  { id := 0, race := race, gender := "Male", ageGroup := "26-35",
    riskScore := riskScore, highRisk := highRisk, actualBad := actualBad }

/-- The example scenario of the specification, the group being the `race`
field: 8 high-risk and 2 low-risk records of `A`, 2 high-risk and 8 low-risk
records of `B`. -/
def scenarioData : List Record :=
  List.replicate 8 (sampleRecord "A" 70 true false) ++
  List.replicate 2 (sampleRecord "A" 40 false false) ++
  List.replicate 2 (sampleRecord "B" 70 true false) ++
  List.replicate 8 (sampleRecord "B" 40 false false)

/-- The row of group `A` for `scenarioData`. -/
def scenarioRowA : GroupStat :=
  { group := JsVal.str "A", avgScore := 64, highRiskRate := 80, fpr := 80, fnr := 0, count := 10 }

/-- The row of group `B` for `scenarioData`. -/
def scenarioRowB : GroupStat :=
  { group := JsVal.str "B", avgScore := 46, highRiskRate := 20, fpr := 20, fnr := 0, count := 10 }

/-- Records of three groups: `A` with both actually-bad and not-bad members,
`P` with actually-bad members only, `N` with not-bad members only. -/
def mixedData : List Record :=
  [sampleRecord "A" 70 true true, sampleRecord "A" 40 false true,
   sampleRecord "A" 70 true false, sampleRecord "A" 40 false false,
   sampleRecord "A" 40 false false,
   sampleRecord "P" 70 true true, sampleRecord "P" 40 false true,
   sampleRecord "N" 70 true false, sampleRecord "N" 40 false false,
   sampleRecord "N" 40 false false]

/-- The category list used with `mixedData`. -/
def mixedGroups : List JsVal := [JsVal.str "A", JsVal.str "P", JsVal.str "N"]

/-- The row of group `A` for `mixedData`. -/
def mixedRowA : GroupStat :=
  { group := JsVal.str "A", avgScore := 52, highRiskRate := 40, fpr := 33.3, fnr := 50, count := 5 }

/-- The row of group `P` for `mixedData`. -/
def mixedRowP : GroupStat :=
  { group := JsVal.str "P", avgScore := 55, highRiskRate := 50, fpr := 0, fnr := 50, count := 2 }

/-- The row of group `N` for `mixedData`. -/
def mixedRowN : GroupStat :=
  { group := JsVal.str "N", avgScore := 50, highRiskRate := 33.3, fpr := 33.3, fnr := 0, count := 3 }

/-- Two records: one flagged record of group `A`, one unflagged of group `B`. -/
def zeroRateData : List Record :=
  [sampleRecord "A" 70 true false, sampleRecord "B" 40 false false]

/-- Draws that select `White`, `Male`, `26-35` (baseline 49) with deviate `z`. -/
def sampleDraw (z : ℚ) : Draw :=
  { uRace := 0, uGender := 0, uAge := 0.2, z := z, uBad := 0.5 }

/-- Draws for two records: deviate `2` (score 65), then `15/8` (score 64). -/
def sampleDraws (id : ℕ) : Draw := if id = 0 then sampleDraw 2 else sampleDraw (15 / 8)

/-- The two records generated from `sampleDraws`. -/
def sampleGenerated : List Record :=
  [{ id := 0, race := "White", gender := "Male", ageGroup := "26-35", riskScore := 65,
     highRisk := true, actualBad := false },
   { id := 1, race := "White", gender := "Male", ageGroup := "26-35", riskScore := 64,
     highRisk := false, actualBad := false }]

/-- A string-to-number conversion for the samples: it agrees with the built-in
conversion on unsigned decimal integers and on the non-numeric words used in
the samples; other numeric forms (sign, fraction, exponent, radix prefix,
empty string) are not recognised by it and do not occur in the samples. -/
def decimalToNumber (s : String) : Option ℚ :=
  let cs := jsTrim s.data
  if cs ≠ [] ∧ cs.all (fun c => c.isDigit) then
    some ((cs.foldl (fun acc c => acc * 10 + (c.toNat - 48)) 0 : ℕ) : ℚ)
  else none

/-- A two-line upload whose scores are on both sides of the threshold. -/
def sampleCsv : List Char := "race,riskScore\nWhite,65\nBlack,64".data

/-- The rows ingested from `sampleCsv` when both `Math.random()` outcomes
are `0.5`. -/
def sampleCsvRows : List JsObject :=
  [[("race", JsVal.str "White"), ("riskScore", JsVal.num 65),
    ("highRisk", JsVal.bool true), ("actualBad", JsVal.bool false)],
   [("race", JsVal.str "Black"), ("riskScore", JsVal.num 64),
    ("highRisk", JsVal.bool false), ("actualBad", JsVal.bool false)]]

/-- The two-column upload of the specification's round-trip example. -/
def witnessCsv : List Char := "race,riskScore\nWhite,70\nBlack,40".data

/-- An upload whose two columns have the same name. -/
def duplicateCsv : List Char := "a,a\n1,2".data

/-- An upload whose only data line has fewer cells than the header. -/
def shortLineCsv : List Char := "race,riskScore\nWhite".data

/-- An upload that ends with an empty line. -/
def trailingCsv : List Char := "a\n1\n\n".data

/-- An upload with a column named like a derived field. -/
def derivedNameCsv : List Char := "highRisk,riskScore\nyes,70".data

/-- An upload whose first data line has no `riskScore` cell. -/
def missingScoreCsv : List Char := "race,riskScore\nWhite\nWhite,70".data

/-- A conversion of values to strings for the samples: it agrees with the
built-in conversion on integers; no sample converts another value. -/
def sampleToStr (v : JsVal) : String :=
  match v with
  | JsVal.num q => toString q.num
  | _ => ""

/-- The row of group `White` for the rows ingested from `missingScoreCsv`. -/
def missingScoreRow : GroupStatObj :=
  { group := JsVal.str "White", avgScore := none, highRiskRate := 50, fpr := 50, fnr := 0,
    count := 2 }

/-- The row of group `White` for the rows ingested from `witnessCsv`. -/
def witnessRowWhite : GroupStatObj :=
  { group := JsVal.str "White", avgScore := some 70, highRiskRate := 100, fpr := 100, fnr := 0,
    count := 1 }

/-- An upload with a column named `__proto__`. -/
def protoCsv : List Char := "__proto__,riskScore\nx,70".data

/-- A state with generated data and a previous upload. -/
def sampleState : AppState :=
  { data := sampleGenerated, uploadedData := some sampleCsvRows }

/-! ## Lemmas on the numeric helpers -/

theorem ratFloor_eq (q : ℚ) : Rat.floor q = ⌊q⌋ := rfl

theorem toFixedNonneg_rounded (x : ℚ) (f : ℕ) : RoundedTo f x (toFixedNonneg x f) := by
  have hp : (0 : ℚ) < 10 ^ f := by positivity
  refine ⟨⟨Rat.floor (x * 10 ^ f + 1 / 2), rfl⟩, ?_⟩
  unfold toFixedNonneg
  rw [ratFloor_eq]
  have h1 := Int.floor_le (x * 10 ^ f + 1 / 2)
  have h2 := Int.lt_floor_add_one (x * 10 ^ f + 1 / 2)
  have e : (⌊x * 10 ^ f + 1 / 2⌋ : ℚ) / 10 ^ f - x
      = ((⌊x * 10 ^ f + 1 / 2⌋ : ℚ) - x * 10 ^ f) / 10 ^ f := by
    field_simp
    ring
  rw [e, abs_div, abs_of_pos hp, div_le_iff₀ hp]
  have e2 : (1 : ℚ) / (2 * 10 ^ f) * 10 ^ f = 1 / 2 := by
    field_simp
    ring
  rw [e2, abs_le]
  constructor <;> linarith

theorem toFixed_rounded (x : ℚ) (f : ℕ) : RoundedTo f x (toFixed x f) := by
  unfold toFixed
  split_ifs with h
  · obtain ⟨⟨n, hn⟩, hd⟩ := toFixedNonneg_rounded (-x) f
    refine ⟨⟨-n, ?_⟩, ?_⟩
    · rw [hn]; push_cast; ring
    · have e : -toFixedNonneg (-x) f - x = -(toFixedNonneg (-x) f - -x) := by ring
      rw [e, abs_neg]; exact hd
  · exact toFixedNonneg_rounded x f

theorem toFixed_zero (f : ℕ) : toFixed 0 f = 0 := by
  simp [toFixed, toFixedNonneg, ratFloor_eq]
  norm_num

theorem toFixed_one_two : toFixed 1 2 = 1 := by
  norm_num [toFixed, toFixedNonneg, Rat.floor_def']

theorem toFixed_nonneg {x : ℚ} (hx : 0 ≤ x) (f : ℕ) : 0 ≤ toFixed x f := by
  unfold toFixed
  rw [if_neg (not_lt.mpr hx)]
  unfold toFixedNonneg
  rw [ratFloor_eq]
  have : (0 : ℤ) ≤ ⌊x * 10 ^ f + 1 / 2⌋ := Int.floor_nonneg.mpr (by positivity)
  have h' : (0 : ℚ) ≤ (⌊x * 10 ^ f + 1 / 2⌋ : ℚ) := by exact_mod_cast this
  positivity

theorem toFixed_le_hundred {x : ℚ} (hx : 0 ≤ x) (hx' : x ≤ 100) : toFixed x 1 ≤ 100 := by
  unfold toFixed
  rw [if_neg (not_lt.mpr hx)]
  unfold toFixedNonneg
  rw [ratFloor_eq]
  have h1 := Int.floor_le (x * 10 ^ 1 + 1 / 2)
  have h2 : (⌊x * 10 ^ 1 + 1 / 2⌋ : ℚ) < 1001 := by linarith
  have h3 : ⌊x * 10 ^ 1 + 1 / 2⌋ < 1001 := by exact_mod_cast h2
  have h4 : ⌊x * 10 ^ 1 + 1 / 2⌋ ≤ 1000 := by omega
  have h5 : (⌊x * 10 ^ 1 + 1 / 2⌋ : ℚ) ≤ 1000 := by exact_mod_cast h4
  rw [div_le_iff₀ (by norm_num)]
  linarith

/-! ## Lemmas on `groupMetrics` -/

theorem foldl_riskScore (s : List Record) (a : ℚ) :
    s.foldl (fun a d => a + d.riskScore) a = a + (s.map (fun d => d.riskScore)).sum := by
  induction s generalizing a with
  | nil => simp
  | cons d ds ih => simp [ih, add_assoc]

theorem length_negatives (s : List Record) :
    (s.filter (fun d => d.highRisk && !d.actualBad)).length
      + (s.filter (fun d => !d.highRisk && !d.actualBad)).length
      = (s.filter (fun d => !d.actualBad)).length := by
  induction s with
  | nil => rfl
  | cons d ds ih =>
    simp only [List.filter_cons]
    cases d.highRisk <;> cases d.actualBad <;> simp <;> omega

theorem length_positives (s : List Record) :
    (s.filter (fun d => d.highRisk && d.actualBad)).length
      + (s.filter (fun d => !d.highRisk && d.actualBad)).length
      = (s.filter (fun d => d.actualBad)).length := by
  induction s with
  | nil => rfl
  | cons d ds ih =>
    simp only [List.filter_cons]
    cases d.highRisk <;> cases d.actualBad <;> simp <;> omega

theorem groupRow_eq_none_iff (data : List Record) (key : String) (g : JsVal) :
    groupRow data key g = none ↔ groupMembers data key g = [] := by
  unfold groupRow groupMembers
  simp only []
  split_ifs with h
  · simp [List.length_eq_zero.mp h]
  · simp only [false_iff, reduceCtorEq]
    intro h'
    exact h (by rw [h']; rfl)

theorem groupMembers_eq_nil_iff (data : List Record) (key : String) (g : JsVal) :
    groupMembers data key g = [] ↔ data.any (fun d => strictEq (d.get key) g) = false := by
  unfold groupMembers
  simp [List.filter_eq_nil_iff]

theorem groupRow_fields {data : List Record} {key : String} {g : JsVal} {row : GroupStat}
    (h : groupRow data key g = some row) :
    groupMembers data key g ≠ [] ∧ row.group = g ∧
    row.count = (groupMembers data key g).length ∧
    row.avgScore = toFixed (meanScore (groupMembers data key g)) 1 ∧
    row.highRiskRate = toFixed (percentOf (fun d => d.highRisk) (groupMembers data key g)) 1 ∧
    row.fpr = toFixed
      (if (groupMembers data key g).filter (fun d => !d.actualBad) = [] then 0
       else percentOf (fun d => d.highRisk) ((groupMembers data key g).filter (fun d => !d.actualBad))) 1 ∧
    row.fnr = toFixed
      (if (groupMembers data key g).filter (fun d => d.actualBad) = [] then 0
       else percentOf (fun d => !d.highRisk) ((groupMembers data key g).filter (fun d => d.actualBad))) 1 := by
  have hne : groupMembers data key g ≠ [] := by
    intro h0
    rw [(groupRow_eq_none_iff data key g).mpr h0] at h
    exact Option.noConfusion h
  have hlen : ¬ (groupMembers data key g).length = 0 := fun h0 => hne (List.length_eq_zero.mp h0)
  have hrow : row =
      { group := g
        avgScore := toFixed ((groupMembers data key g).foldl (fun a d => a + d.riskScore) 0
          / (groupMembers data key g).length) 1
        highRiskRate := toFixed
          ((((groupMembers data key g).filter (fun d => d.highRisk)).length : ℚ)
            / (groupMembers data key g).length * 100) 1
        fpr := toFixed
          (if ((groupMembers data key g).filter (fun d => d.highRisk && !d.actualBad)).length
              + ((groupMembers data key g).filter (fun d => !d.highRisk && !d.actualBad)).length > 0
           then (((groupMembers data key g).filter (fun d => d.highRisk && !d.actualBad)).length : ℚ)
              / ((((groupMembers data key g).filter (fun d => d.highRisk && !d.actualBad)).length
                + ((groupMembers data key g).filter (fun d => !d.highRisk && !d.actualBad)).length : ℕ) : ℚ)
              * 100
           else 0) 1
        fnr := toFixed
          (if ((groupMembers data key g).filter (fun d => d.highRisk && d.actualBad)).length
              + ((groupMembers data key g).filter (fun d => !d.highRisk && d.actualBad)).length > 0
           then (((groupMembers data key g).filter (fun d => !d.highRisk && d.actualBad)).length : ℚ)
              / ((((groupMembers data key g).filter (fun d => d.highRisk && d.actualBad)).length
                + ((groupMembers data key g).filter (fun d => !d.highRisk && d.actualBad)).length : ℕ) : ℚ)
              * 100
           else 0) 1
        count := (groupMembers data key g).length } := by
    unfold groupRow at h
    simp only [] at h
    have hlen' : ¬ (data.filter (fun d => strictEq (d.get key) g)).length = 0 := hlen
    rw [if_neg hlen'] at h
    exact (Option.some.inj h).symm
  subst hrow
  refine ⟨hne, rfl, rfl, ?_, ?_, ?_, ?_⟩
  · simp only [meanScore, foldl_riskScore, zero_add]
  · simp only [percentOf]
    congr 1
    ring
  · simp only [length_negatives, percentOf, List.filter_filter]
    congr 1
    by_cases h0 : (groupMembers data key g).filter (fun d => !d.actualBad) = []
    · simp [h0]
    · have : 0 < ((groupMembers data key g).filter (fun d => !d.actualBad)).length :=
        List.length_pos.mpr h0
      rw [if_pos this, if_neg h0]
      ring
  · simp only [length_positives, percentOf, List.filter_filter]
    congr 1
    by_cases h0 : (groupMembers data key g).filter (fun d => d.actualBad) = []
    · simp [h0]
    · have : 0 < ((groupMembers data key g).filter (fun d => d.actualBad)).length :=
        List.length_pos.mpr h0
      rw [if_pos this, if_neg h0]
      ring

theorem mem_groupMetrics {data : List Record} {key : String} {groups : List JsVal}
    {row : GroupStat} :
    row ∈ groupMetrics data key groups ↔ ∃ g ∈ groups, groupRow data key g = some row := by
  unfold groupMetrics
  rw [List.reduceOption_mem_iff]
  simp [List.mem_map]

theorem percentOf_nonneg (p : Record → Bool) (s : List Record) : 0 ≤ percentOf p s := by
  unfold percentOf
  positivity

theorem percentOf_le (p : Record → Bool) (s : List Record) : percentOf p s ≤ 100 := by
  unfold percentOf
  rcases Nat.eq_zero_or_pos s.length with h0 | hpos
  · simp [h0]
  · have hq : (0 : ℚ) < (s.length : ℚ) := by exact_mod_cast hpos
    have hle : ((s.filter p).length : ℚ) ≤ (s.length : ℚ) := by
      exact_mod_cast List.length_filter_le p s
    rw [div_le_iff₀ hq]
    linarith

/-! ## Theorems on `groupMetrics` -/

/-- C1: the groups of the rows of `groupMetrics(data, key, groups)` are exactly
the entries of `groups` that have at least one record with `data[key]` equal to
them, once per entry and in the order of `groups`; an empty `data` gives an
empty result for every key. -/
theorem groupMetrics_rows_follow_groups (data : List Record) (key : String)
    (groups : List JsVal) :
    (groupMetrics data key groups).map (fun r => r.group)
        = groups.filter (fun g => data.any (fun d => strictEq (d.get key) g)) ∧
      groupMetrics [] key groups = [] := by
  constructor
  · induction groups with
    | nil => rfl
    | cons g gs ih =>
      have hcons : groupMetrics data key (g :: gs)
          = (groupRow data key g :: (gs.map (groupRow data key))).reduceOption := rfl
      cases hrow : groupRow data key g with
      | none =>
        have hany := (groupMembers_eq_nil_iff data key g).mp
          ((groupRow_eq_none_iff data key g).mp hrow)
        rw [hcons, hrow, List.reduceOption_cons_of_none, List.filter_cons, hany]
        exact ih
      | some row =>
        have hf := groupRow_fields hrow
        have hany : data.any (fun d => strictEq (d.get key) g) = true := by
          cases hb : data.any (fun d => strictEq (d.get key) g) with
          | true => rfl
          | false => exact absurd ((groupMembers_eq_nil_iff data key g).mpr hb) hf.1
        rw [hcons, hrow, List.reduceOption_cons_of_some, List.filter_cons, hany, List.map_cons,
          hf.2.1]
        exact congrArg (List.cons g) ih
  · induction groups with
    | nil => rfl
    | cons g gs ih =>
      have hcons : groupMetrics [] key (g :: gs)
          = (groupRow [] key g :: (gs.map (groupRow [] key))).reduceOption := rfl
      have hrow : groupRow [] key g = none := (groupRow_eq_none_iff [] key g).mpr rfl
      rw [hcons, hrow, List.reduceOption_cons_of_none]
      exact ih

/-- C3, as stated, fails: for group `N` of `mixedData` one of three not-bad
members is flagged, the exact percentage is `100 / 3`, and the row's `fpr` is
`33.3`. -/
theorem fpr_not_exact_percentage :
    mixedRowN ∈ groupMetrics mixedData "race" mixedGroups ∧
      (groupMembers mixedData "race" mixedRowN.group).filter (fun d => !d.actualBad) ≠ [] ∧
      mixedRowN.fpr ≠ percentOf (fun d => d.highRisk)
        ((groupMembers mixedData "race" mixedRowN.group).filter (fun d => !d.actualBad)) := by
  decide!

/-- C3 (amended): in every row returned by `groupMetrics`, `fpr` is the
percentage of the group's members with `actualBad = false` that have
`highRisk = true`, rounded to 1 decimal, and `fnr` is the percentage of the
members with `actualBad = true` that have `highRisk = false`, rounded to
1 decimal, whenever the respective denominator is non-zero. -/
theorem groupMetrics_fpr_fnr_rounded (data : List Record) (key : String) (groups : List JsVal)
    (row : GroupStat) (h : row ∈ groupMetrics data key groups) :
    ((groupMembers data key row.group).filter (fun d => !d.actualBad) ≠ [] →
        RoundedTo 1
          (percentOf (fun d => d.highRisk)
            ((groupMembers data key row.group).filter (fun d => !d.actualBad)))
          row.fpr) ∧
      ((groupMembers data key row.group).filter (fun d => d.actualBad) ≠ [] →
        RoundedTo 1
          (percentOf (fun d => !d.highRisk)
            ((groupMembers data key row.group).filter (fun d => d.actualBad)))
          row.fnr) := by
  obtain ⟨g, -, hrow⟩ := mem_groupMetrics.mp h
  obtain ⟨-, hgrp, -, -, -, hfpr, hfnr⟩ := groupRow_fields hrow
  subst hgrp
  constructor
  · intro hne
    rw [hfpr, if_neg hne]
    exact toFixed_rounded _ _
  · intro hne
    rw [hfnr, if_neg hne]
    exact toFixed_rounded _ _

/-- Witness of C3 (amended): group `A` of `mixedData`, which has members of
both kinds. -/
theorem groupMetrics_fpr_fnr_rounded_witness :
    mixedRowA ∈ groupMetrics mixedData "race" mixedGroups ∧
      RoundedTo 1
        (percentOf (fun d => d.highRisk)
          ((groupMembers mixedData "race" mixedRowA.group).filter (fun d => !d.actualBad)))
        mixedRowA.fpr ∧
      RoundedTo 1
        (percentOf (fun d => !d.highRisk)
          ((groupMembers mixedData "race" mixedRowA.group).filter (fun d => d.actualBad)))
        mixedRowA.fnr :=
  ⟨by decide!,
    (groupMetrics_fpr_fnr_rounded mixedData "race" mixedGroups mixedRowA (by decide!)).1
      (by decide!),
    (groupMetrics_fpr_fnr_rounded mixedData "race" mixedGroups mixedRowA (by decide!)).2
      (by decide!)⟩

/-- C4: in every row returned by `groupMetrics`, `fpr` and `fnr` lie in
`[0, 100]`; `fpr` is exactly `0` when the group has no member with
`actualBad = false`, and `fnr` is exactly `0` when it has no member with
`actualBad = true`. -/
theorem groupMetrics_fpr_fnr_bounds (data : List Record) (key : String) (groups : List JsVal)
    (row : GroupStat) (h : row ∈ groupMetrics data key groups) :
    (0 ≤ row.fpr ∧ row.fpr ≤ 100) ∧ (0 ≤ row.fnr ∧ row.fnr ≤ 100) ∧
      ((groupMembers data key row.group).filter (fun d => !d.actualBad) = [] → row.fpr = 0) ∧
      ((groupMembers data key row.group).filter (fun d => d.actualBad) = [] → row.fnr = 0) := by
  obtain ⟨g, -, hrow⟩ := mem_groupMetrics.mp h
  obtain ⟨-, hgrp, -, -, -, hfpr, hfnr⟩ := groupRow_fields hrow
  subst hgrp
  have hb : ∀ (c : Prop) [Decidable c] (p : Record → Bool) (s : List Record),
      0 ≤ (if c then (0 : ℚ) else percentOf p s) ∧ (if c then (0 : ℚ) else percentOf p s) ≤ 100 := by
    intro c _ p s
    split_ifs
    · norm_num
    · exact ⟨percentOf_nonneg p s, percentOf_le p s⟩
  refine ⟨?_, ?_, ?_, ?_⟩
  · rw [hfpr]
    exact ⟨toFixed_nonneg (hb _ _ _).1 1, toFixed_le_hundred (hb _ _ _).1 (hb _ _ _).2⟩
  · rw [hfnr]
    exact ⟨toFixed_nonneg (hb _ _ _).1 1, toFixed_le_hundred (hb _ _ _).1 (hb _ _ _).2⟩
  · intro h0
    rw [hfpr, if_pos h0, toFixed_zero]
  · intro h0
    rw [hfnr, if_pos h0, toFixed_zero]

/-- Witness of C4: group `P` of `mixedData` has no member with
`actualBad = false`, group `N` none with `actualBad = true`. -/
theorem groupMetrics_fpr_fnr_bounds_witness :
    (mixedRowP ∈ groupMetrics mixedData "race" mixedGroups ∧
        mixedRowN ∈ groupMetrics mixedData "race" mixedGroups) ∧
      ((0 ≤ mixedRowP.fpr ∧ mixedRowP.fpr ≤ 100) ∧ (0 ≤ mixedRowP.fnr ∧ mixedRowP.fnr ≤ 100)) ∧
      mixedRowP.fpr = 0 ∧ mixedRowN.fnr = 0 :=
  ⟨⟨by decide!, by decide!⟩,
    ⟨(groupMetrics_fpr_fnr_bounds mixedData "race" mixedGroups mixedRowP (by decide!)).1,
      (groupMetrics_fpr_fnr_bounds mixedData "race" mixedGroups mixedRowP (by decide!)).2.1⟩,
    (groupMetrics_fpr_fnr_bounds mixedData "race" mixedGroups mixedRowP (by decide!)).2.2.1
      (by decide!),
    (groupMetrics_fpr_fnr_bounds mixedData "race" mixedGroups mixedRowN (by decide!)).2.2.2
      (by decide!)⟩

/-! ## Theorems on `withDI` -/

theorem withDI_eq_map (metrics : List GroupStat) (refGroup : JsVal) :
    withDI metrics refGroup = metrics.map (fun m =>
      ({ toGroupStat := m,
         di := diOf (metrics.find? (fun m => strictEq m.group refGroup)) m } : GroupStatDI)) :=
  rfl

theorem mem_withDI {metrics : List GroupStat} {refGroup : JsVal} {r : GroupStatDI}
    (h : r ∈ withDI metrics refGroup) :
    r.toGroupStat ∈ metrics ∧
      r.di = diOf (metrics.find? (fun m => strictEq m.group refGroup)) r.toGroupStat := by
  rw [withDI_eq_map, List.mem_map] at h
  obtain ⟨m, hm, rfl⟩ := h
  exact ⟨hm, rfl⟩

theorem diOf_self {ref : GroupStat} (hpos : 0 < ref.highRiskRate) :
    diOf (some ref) ref = some 1 := by
  unfold diOf
  simp only []
  rw [if_pos hpos, div_self (ne_of_gt hpos), toFixed_one_two]

/-- C5: `withDI` keeps every row; when the row that `find` returns for
`refGroup` (the first row of that group) has `highRiskRate > 0`, every row's
`di` is a number that is `highRiskRate / reference.highRiskRate` rounded to
2 decimals (a multiple of `0.01` within `0.005` of the ratio; which of the two
neighbours is taken when the ratio lies exactly half way is not asserted,
since the binary representation of the ratio decides it); when no row has
group `refGroup`, or that row's `highRiskRate` is exactly `0`, every `di` is
`null`. On the example scenario with reference `A`:
`A.highRiskRate = 80`, `B.highRiskRate = 20`, `B.di = 0.25`. -/
theorem withDI_di (metrics : List GroupStat) (refGroup : JsVal) :
    (withDI metrics refGroup).map (fun r => r.toGroupStat) = metrics ∧
      (∀ ref, metrics.find? (fun m => strictEq m.group refGroup) = some ref →
        0 < ref.highRiskRate →
        ∀ r ∈ withDI metrics refGroup,
          ∃ d : ℚ, r.di = some d ∧ RoundedTo 2 (r.highRiskRate / ref.highRiskRate) d) ∧
      ((∀ m ∈ metrics, m.group ≠ refGroup) → ∀ r ∈ withDI metrics refGroup, r.di = none) ∧
      (∀ ref, metrics.find? (fun m => strictEq m.group refGroup) = some ref →
        ref.highRiskRate = 0 → ∀ r ∈ withDI metrics refGroup, r.di = none) ∧
      (groupMetrics scenarioData "race" [JsVal.str "A", JsVal.str "B"]
          = [scenarioRowA, scenarioRowB] ∧
        scenarioRowA.highRiskRate = 80 ∧ scenarioRowB.highRiskRate = 20 ∧
        withDI (groupMetrics scenarioData "race" [JsVal.str "A", JsVal.str "B"]) (JsVal.str "A")
          = [{ toGroupStat := scenarioRowA, di := some 1 },
             { toGroupStat := scenarioRowB, di := some 0.25 }]) := by
  refine ⟨?_, ?_, ?_, ?_, ?_⟩
  · rw [withDI_eq_map, List.map_map]
    exact List.map_id metrics
  · intro ref hfind hpos r hr
    obtain ⟨-, hdi⟩ := mem_withDI hr
    rw [hfind] at hdi
    refine ⟨toFixed (r.highRiskRate / ref.highRiskRate) 2, ?_, toFixed_rounded _ _⟩
    rw [hdi]
    unfold diOf
    simp only []
    rw [if_pos hpos]
  · intro hnone r hr
    obtain ⟨-, hdi⟩ := mem_withDI hr
    have hfind : metrics.find? (fun m => strictEq m.group refGroup) = none := by
      rw [List.find?_eq_none]
      intro m hm
      simpa [strictEq] using hnone m hm
    rw [hdi, hfind]
    rfl
  · intro ref hfind hzero r hr
    obtain ⟨-, hdi⟩ := mem_withDI hr
    rw [hdi, hfind]
    unfold diOf
    simp only []
    rw [if_neg (by rw [hzero]; exact lt_irrefl 0)]
  · decide!

/-- C6: whenever `withDI` produces a non-null `di`, the reference row exists,
the first row of group `refGroup` in the result is that row with `di = 1`, and
every result row equal to the reference row has `di = 1`. -/
theorem withDI_reference_di_one (metrics : List GroupStat) (refGroup : JsVal)
    (h : ∃ r ∈ withDI metrics refGroup, r.di ≠ none) :
    ∃ ref, metrics.find? (fun m => strictEq m.group refGroup) = some ref ∧
      (withDI metrics refGroup).find? (fun r => strictEq r.group refGroup)
        = some { toGroupStat := ref, di := some 1 } ∧
      ∀ r ∈ withDI metrics refGroup, r.toGroupStat = ref → r.di = some 1 := by
  obtain ⟨r0, hr0, hdef⟩ := h
  obtain ⟨-, hdi0⟩ := mem_withDI hr0
  cases hfind : metrics.find? (fun m => strictEq m.group refGroup) with
  | none =>
    rw [hfind] at hdi0
    exact absurd hdi0 hdef
  | some ref =>
    have hpos : 0 < ref.highRiskRate := by
      by_contra hn
      rw [hfind] at hdi0
      apply hdef
      rw [hdi0]
      unfold diOf
      simp only []
      rw [if_neg hn]
    refine ⟨ref, rfl, ?_, ?_⟩
    · rw [withDI_eq_map, List.find?_map]
      have hcomp : ((fun r : GroupStatDI => strictEq r.group refGroup) ∘ fun m =>
          ({ toGroupStat := m,
             di := diOf (metrics.find? (fun m => strictEq m.group refGroup)) m } : GroupStatDI))
          = fun m => strictEq m.group refGroup := rfl
      rw [hcomp, hfind, Option.map_some', diOf_self hpos]
    · intro r hr heq
      obtain ⟨-, hdi⟩ := mem_withDI hr
      rw [hdi, hfind, heq]
      exact diOf_self hpos

/-- Witness of C6: the two rows of the example scenario, reference `A`. -/
theorem withDI_reference_di_one_witness :
    ∃ ref, [scenarioRowA, scenarioRowB].find? (fun m => strictEq m.group (JsVal.str "A"))
        = some ref ∧
      (withDI [scenarioRowA, scenarioRowB] (JsVal.str "A")).find?
          (fun r => strictEq r.group (JsVal.str "A"))
        = some { toGroupStat := ref, di := some 1 } ∧
      ∀ r ∈ withDI [scenarioRowA, scenarioRowB] (JsVal.str "A"),
        r.toGroupStat = ref → r.di = some 1 :=
  withDI_reference_di_one [scenarioRowA, scenarioRowB] (JsVal.str "A")
    ⟨{ toGroupStat := scenarioRowB, di := some 0.25 }, by decide!, by decide!⟩

/-! ## Theorems on `biasColor` -/

/-- C7 (code evaluated at the failing input): `biasColor(0)` is the colour of
the unknown tier, while the specification's classification makes `0`
discriminatory (terracotta); `0` is a `di` that `withDI` produces; for every
other `di`, `null` included, `biasColor` is the colour of the specification's
tier. -/
theorem biasColor_zero_is_muted :
    (biasColor (some 0) = C.textMuted ∧ (specTier (some 0)).color = C.terracotta ∧
        C.textMuted ≠ C.terracotta) ∧
      (withDI (groupMetrics zeroRateData "race" [JsVal.str "A", JsVal.str "B"]) (JsVal.str "A")).map
          (fun r => r.di) = [some 1, some 0] ∧
      ∀ di : Option ℚ, di ≠ some 0 → biasColor di = (specTier di).color := by
  refine ⟨by decide!, by decide!, ?_⟩
  intro di hdi
  cases di with
  | none => rfl
  | some d =>
    have hd : d ≠ 0 := fun h0 => hdi (by rw [h0])
    unfold biasColor specTier
    simp only []
    rw [if_neg hd]
    split_ifs <;> rfl

/-- C8: `biasColor` gives `0.8` and `1.25` the colour of the fair tier, `0.79`
and `1.26` that of the borderline tier, `0.649` and `1.51` that of the
discriminatory tier; the colours of the four tiers are pairwise distinct. -/
theorem biasColor_boundaries :
    biasColor (some 0.8) = Tier.fair.color ∧
      biasColor (some 0.79) = Tier.borderline.color ∧
      biasColor (some 0.649) = Tier.discriminatory.color ∧
      biasColor (some 1.25) = Tier.fair.color ∧
      biasColor (some 1.26) = Tier.borderline.color ∧
      biasColor (some 1.51) = Tier.discriminatory.color ∧
      ∀ s t : Tier, s.color = t.color → s = t := by
  refine ⟨by decide!, by decide!, by decide!, by decide!, by decide!, by decide!, ?_⟩
  intro s t
  cases s <;> cases t <;> decide!

/-! ## Theorems on record creation -/

theorem JsObject.get_setOwn_same (o : JsObject) (k : String) (v : JsVal) :
    JsObject.get (JsObject.setOwn o k v) k = v := by
  induction o with
  | nil => simp [JsObject.setOwn, JsObject.get]
  | cons kv rest ih =>
    obtain ⟨k', v'⟩ := kv
    by_cases hk : k' = k
    · simp [JsObject.setOwn, JsObject.get, hk]
    · simp [JsObject.setOwn, JsObject.get, hk, ih]

theorem JsObject.get_setOwn_other (o : JsObject) (k k' : String) (v : JsVal) (hne : k ≠ k') :
    JsObject.get (JsObject.setOwn o k v) k' = JsObject.get o k' := by
  induction o with
  | nil => simp [JsObject.setOwn, JsObject.get, hne]
  | cons kv rest ih =>
    obtain ⟨k0, v0⟩ := kv
    by_cases hk : k0 = k
    · subst hk
      simp [JsObject.setOwn, JsObject.get, hne]
    · by_cases hk' : k0 = k'
      · subst hk'
        simp [JsObject.setOwn, JsObject.get, hk]
      · simp [JsObject.setOwn, JsObject.get, hk, hk', ih]

theorem JsObject.get_set_same (o : JsObject) (k : String) (v : JsVal)
    (hk : k ≠ "__proto__") :
    JsObject.get (JsObject.set o k v) k = v := by
  unfold JsObject.set
  rw [if_neg hk]
  exact JsObject.get_setOwn_same o k v

theorem JsObject.get_set_other (o : JsObject) (k k' : String) (v : JsVal) (hne : k ≠ k') :
    JsObject.get (JsObject.set o k v) k' = JsObject.get o k' := by
  unfold JsObject.set
  split_ifs
  · rfl
  · exact JsObject.get_setOwn_other o k k' v hne

theorem csvRow_highRisk (toNumber : String → Option ℚ) (headers : List String)
    (line : List Char) (u : ℚ) :
    JsObject.get (csvRow toNumber headers line u) "highRisk"
      = JsVal.bool
          (jsGe toNumber (JsObject.get (csvRow toNumber headers line u) "riskScore") 65) := by
  unfold csvRow
  simp only []
  rw [JsObject.get_set_other _ "actualBad" "highRisk" _ (by decide),
    JsObject.get_set_same _ _ _ (by decide),
    JsObject.get_set_other _ "actualBad" "riskScore" _ (by decide),
    JsObject.get_set_other _ "highRisk" "riskScore" _ (by decide)]

theorem mem_csvRows {toNumber : String → Option ℚ} {text : List Char} {rnd : ℕ → ℚ}
    {row : JsObject} (h : row ∈ csvRows toNumber text rnd) :
    ∃ headers line u, row = csvRow toNumber headers line u := by
  unfold csvRows at h
  simp only [List.mem_map] at h
  obtain ⟨il, -, rfl⟩ := h
  exact ⟨_, _, _, rfl⟩

/-- C9: every record of `generateDataset` has `highRisk = (riskScore >= 65)`,
and every row built by the CSV ingestion has
`row.highRisk = (row.riskScore >= 65)` in the sense of the JavaScript
comparison; a `riskScore` of `65` gives `true` and one of `64` gives `false`. -/
theorem highRisk_iff_threshold (toNumber : String → Option ℚ) (n : ℕ) (draws : ℕ → Draw)
    (text : List Char) (rnd : ℕ → ℚ) :
    (∀ r ∈ generateDataset n draws,
        r.highRisk = decide (r.riskScore ≥ 65) ∧
        (r.riskScore = 65 → r.highRisk = true) ∧ (r.riskScore = 64 → r.highRisk = false)) ∧
      (∀ row ∈ csvRows toNumber text rnd,
        JsObject.get row "highRisk"
            = JsVal.bool (jsGe toNumber (JsObject.get row "riskScore") 65) ∧
        (JsObject.get row "riskScore" = JsVal.num 65 →
          JsObject.get row "highRisk" = JsVal.bool true) ∧
        (JsObject.get row "riskScore" = JsVal.num 64 →
          JsObject.get row "highRisk" = JsVal.bool false)) := by
  constructor
  · intro r hr
    unfold generateDataset at hr
    rw [List.mem_map] at hr
    obtain ⟨id, -, rfl⟩ := hr
    have hdef : (generateRecord id (draws id)).highRisk
        = decide ((generateRecord id (draws id)).riskScore ≥ 65) := rfl
    refine ⟨hdef, ?_, ?_⟩
    · intro h65
      rw [hdef, h65]
      decide!
    · intro h64
      rw [hdef, h64]
      decide!
  · intro row hrow
    obtain ⟨headers, line, u, rfl⟩ := mem_csvRows hrow
    have hdef := csvRow_highRisk toNumber headers line u
    refine ⟨hdef, ?_, ?_⟩
    · intro h65
      rw [hdef, h65]
      simp [jsGe]
    · intro h64
      rw [hdef, h64]
      simp [jsGe]
      norm_num

/-- Witness of C9: generated records with scores 65 and 64, and an upload
with the cells `65` and `64`. -/
theorem highRisk_iff_threshold_witness :
    (generateDataset 2 sampleDraws = sampleGenerated ∧
        csvRows decimalToNumber sampleCsv (fun _ => 0.5) = sampleCsvRows) ∧
      (∀ r ∈ generateDataset 2 sampleDraws,
        r.highRisk = decide (r.riskScore ≥ 65) ∧
        (r.riskScore = 65 → r.highRisk = true) ∧ (r.riskScore = 64 → r.highRisk = false)) ∧
      (∀ row ∈ csvRows decimalToNumber sampleCsv (fun _ => 0.5),
        JsObject.get row "highRisk"
            = JsVal.bool (jsGe decimalToNumber (JsObject.get row "riskScore") 65) ∧
        (JsObject.get row "riskScore" = JsVal.num 65 →
          JsObject.get row "highRisk" = JsVal.bool true) ∧
        (JsObject.get row "riskScore" = JsVal.num 64 →
          JsObject.get row "highRisk" = JsVal.bool false)) :=
  ⟨⟨by decide!, by decide!⟩,
    highRisk_iff_threshold decimalToNumber 2 sampleDraws sampleCsv (fun _ => 0.5)⟩

/-- C10: for every `n` and every outcome of the random draws,
`generateDataset(n)` has exactly `n` records, their ids are `0, 1, ..., n-1`
in order, hence pairwise distinct, and `generateDataset(0)` is empty. -/
theorem generateDataset_length_ids (n : ℕ) (draws : ℕ → Draw) :
    (generateDataset n draws).length = n ∧
      (generateDataset n draws).map (fun r => r.id) = List.range n ∧
      ((generateDataset n draws).map (fun r => r.id)).Nodup ∧
      generateDataset 0 draws = [] := by
  have hids : (generateDataset n draws).map (fun r => r.id) = List.range n := by
    unfold generateDataset
    rw [List.map_map]
    exact List.map_id (List.range n)
  refine ⟨?_, hids, ?_, rfl⟩
  · unfold generateDataset
    rw [List.length_map, List.length_range]
  · rw [hids]
    exact List.nodup_range n

/-! ## Theorems on the generated score -/

theorem clamp_int (k : ℤ) : clamp (k : ℚ) = ((max 0 (min 100 k) : ℤ) : ℚ) := by
  unfold clamp
  push_cast
  rfl

theorem mathRound_nearest (x : ℚ) : ∃ k : ℤ, mathRound x = (k : ℚ) ∧ |(k : ℚ) - x| ≤ 1 / 2 := by
  refine ⟨Rat.floor (x + 1 / 2), rfl, ?_⟩
  rw [ratFloor_eq]
  have h1 := Int.floor_le (x + 1 / 2)
  have h2 := Int.lt_floor_add_one (x + 1 / 2)
  rw [abs_le]
  constructor <;> linarith

/-- C11: every record of `generateDataset` has as `riskScore` the baseline
(the mean of the three table entries of its categories) plus the Gaussian
noise, rounded to the nearest integer and clamped; the result is an integer in
`[0, 100]`; `clamp` returns `0` below `0`, `100` above `100` and its argument
otherwise. -/
theorem generateDataset_riskScore (n : ℕ) (draws : ℕ → Draw) (r : Record)
    (h : r ∈ generateDataset n draws) :
    r.riskScore = clamp (mathRound
        ((rBase r.race + gBase r.gender + aBase r.ageGroup) / 3
          + gaussianRandom (draws r.id).z 0 8)) ∧
      (∃ k : ℤ, r.riskScore = (k : ℚ) ∧ 0 ≤ k ∧ k ≤ 100) ∧
      (∀ x : ℚ, ∃ k : ℤ, mathRound x = (k : ℚ) ∧ |(k : ℚ) - x| ≤ 1 / 2) ∧
      (∀ v : ℚ, v < 0 → clamp v = 0) ∧ (∀ v : ℚ, 100 < v → clamp v = 100) ∧
      (∀ v : ℚ, 0 ≤ v → v ≤ 100 → clamp v = v) := by
  unfold generateDataset at h
  rw [List.mem_map] at h
  obtain ⟨id, -, rfl⟩ := h
  have hscore : (generateRecord id (draws id)).riskScore = clamp (mathRound
      ((rBase (generateRecord id (draws id)).race + gBase (generateRecord id (draws id)).gender
          + aBase (generateRecord id (draws id)).ageGroup) / 3
        + gaussianRandom (draws id).z 0 8)) := rfl
  refine ⟨hscore, ?_, mathRound_nearest, ?_, ?_, ?_⟩
  · obtain ⟨k, hk, -⟩ := mathRound_nearest
      ((rBase (generateRecord id (draws id)).race + gBase (generateRecord id (draws id)).gender
          + aBase (generateRecord id (draws id)).ageGroup) / 3
        + gaussianRandom (draws id).z 0 8)
    refine ⟨max 0 (min 100 k), ?_, le_max_left _ _, max_le (by norm_num) (min_le_left _ _)⟩
    rw [hscore, hk, clamp_int]
  · intro v hv
    unfold clamp
    rw [min_eq_right (by linarith), max_eq_left (le_of_lt hv)]
  · intro v hv
    unfold clamp
    rw [min_eq_left (le_of_lt hv), max_eq_right (by norm_num)]
  · intro v h0 h100
    unfold clamp
    rw [min_eq_right h100, max_eq_right h0]

/-- Witness of C11: the first record generated from `sampleDraws` (baseline
49, noise 16, score 65). -/
theorem generateDataset_riskScore_witness :
    sampleGenerated.headD (sampleRecord "" 0 false false) ∈ generateDataset 2 sampleDraws ∧
      (∃ k : ℤ, (sampleGenerated.headD (sampleRecord "" 0 false false)).riskScore = (k : ℚ) ∧
        0 ≤ k ∧ k ≤ 100) :=
  ⟨by decide!,
    (generateDataset_riskScore 2 sampleDraws
      (sampleGenerated.headD (sampleRecord "" 0 false false)) (by decide!)).2.1⟩

/-! ## Theorems on the badge label -/

/-- C15 (code evaluated at the failing input): for `di = 0.79` the badge label
is `Biased` while `biasColor` gives the borderline colour, whose tier is named
`Borderline`; the same holds on the whole band `0.65 <= di < 0.8`; for every
`di` outside that band, `null` included, label and colour name one tier. -/
theorem DIBadge_label_lower_band :
    (DIBadge.label (some 0.79) = "Biased" ∧ biasColor (some 0.79) = Tier.borderline.color ∧
        Tier.borderline.label = "Borderline" ∧ Tier.borderline.label ≠ "Biased") ∧
      (∀ d : ℚ, 0.65 ≤ d → d < 0.8 →
        DIBadge.label (some d) = Tier.discriminatory.label ∧
        biasColor (some d) = Tier.borderline.color) ∧
      (∀ di : Option ℚ, (∀ d, di = some d → ¬ (0.65 ≤ d ∧ d < 0.8)) →
        ∃ t : Tier, biasColor di = t.color ∧ DIBadge.label di = t.label) := by
  refine ⟨by decide!, ?_, ?_⟩
  · intro d h1 h2
    have hd0 : d ≠ 0 := by
      intro h0
      rw [h0] at h1
      norm_num at h1
    have hnf : ¬ (d ≥ 0.8 ∧ d ≤ 1.25) := fun hc => absurd hc.1 (not_le.mpr h2)
    have hnb : ¬ (d > 1.25 ∧ d ≤ 1.5) := by
      intro hc
      have := hc.1
      norm_num at this h2
      linarith
    constructor
    · unfold DIBadge.label
      simp only []
      rw [if_neg hd0, if_neg hnf, if_neg hnb]
      rfl
    · unfold biasColor
      simp only []
      rw [if_neg hd0, if_neg hnf, if_pos (Or.inl ⟨h1, h2⟩)]
      rfl
  · intro di hband
    cases di with
    | none => exact ⟨Tier.unknown, rfl, rfl⟩
    | some d =>
      have hb := hband d rfl
      unfold biasColor DIBadge.label
      simp only []
      by_cases hd0 : d = 0
      · rw [if_pos hd0, if_pos hd0]
        exact ⟨Tier.unknown, rfl, rfl⟩
      · rw [if_neg hd0, if_neg hd0]
        by_cases hf : d ≥ 0.8 ∧ d ≤ 1.25
        · rw [if_pos hf, if_pos hf]
          exact ⟨Tier.fair, rfl, rfl⟩
        · rw [if_neg hf, if_neg hf]
          by_cases hu : d > 1.25 ∧ d ≤ 1.5
          · rw [if_pos (Or.inr hu), if_pos hu]
            exact ⟨Tier.borderline, rfl, rfl⟩
          · have hn : ¬ ((d ≥ 0.65 ∧ d < 0.8) ∨ (d > 1.25 ∧ d ≤ 1.5)) := by
              intro hc
              rcases hc with hc | hc
              · exact hb hc
              · exact hu hc
            rw [if_neg hn, if_neg hu]
            exact ⟨Tier.discriminatory, rfl, rfl⟩

/-! ## The partition invariant of `groupMetrics` -/

theorem confusion_total (s : List Record) :
    (s.filter (fun d => d.highRisk && d.actualBad)).length
      + (s.filter (fun d => d.highRisk && !d.actualBad)).length
      + (s.filter (fun d => !d.highRisk && d.actualBad)).length
      + (s.filter (fun d => !d.highRisk && !d.actualBad)).length = s.length := by
  induction s with
  | nil => rfl
  | cons d ds ih =>
    simp only [List.filter_cons, List.length_cons]
    cases d.highRisk <;> cases d.actualBad <;> simp <;> omega

theorem groupMetrics_cons_count (data : List Record) (key : String) (g : JsVal)
    (gs : List JsVal) :
    ((groupMetrics data key (g :: gs)).map (fun r => r.count)).sum
      = (groupMembers data key g).length
        + ((groupMetrics data key gs).map (fun r => r.count)).sum := by
  have hcons : groupMetrics data key (g :: gs)
      = (groupRow data key g :: (gs.map (groupRow data key))).reduceOption := rfl
  cases hrow : groupRow data key g with
  | none =>
    rw [hcons, hrow, List.reduceOption_cons_of_none,
      (groupRow_eq_none_iff data key g).mp hrow]
    simp [groupMetrics]
  | some row =>
    rw [hcons, hrow, List.reduceOption_cons_of_some, List.map_cons, List.sum_cons,
      (groupRow_fields hrow).2.2.1]
    rfl

theorem length_filter_or {α : Type} (p q : α → Bool) (l : List α)
    (hdisj : ∀ a ∈ l, ¬ (p a = true ∧ q a = true)) :
    (l.filter (fun a => p a || q a)).length = (l.filter p).length + (l.filter q).length := by
  induction l with
  | nil => rfl
  | cons a as ih =>
    have ih' := ih (fun x hx => hdisj x (List.mem_cons_of_mem a hx))
    have ha := hdisj a (List.mem_cons_self a as)
    simp only [List.filter_cons]
    cases hp : p a <;> cases hq : q a
    · simpa using ih'
    · simp only [Bool.false_or, if_true, List.length_cons, Bool.false_eq_true, if_false]
      omega
    · simp only [Bool.true_or, if_true, List.length_cons, Bool.false_eq_true, if_false]
      omega
    · exact absurd ⟨hp, hq⟩ ha

theorem filter_mem_cons_length (data : List Record) (key : String) (g : JsVal)
    (gs : List JsVal) (hg : g ∉ gs) :
    (data.filter (fun d => decide (d.get key ∈ g :: gs))).length
      = (groupMembers data key g).length
        + (data.filter (fun d => decide (d.get key ∈ gs))).length := by
  have hfun : (fun d : Record => decide (d.get key ∈ g :: gs))
      = fun d => strictEq (d.get key) g || decide (d.get key ∈ gs) := by
    funext d
    simp [strictEq]
  rw [hfun]
  unfold groupMembers
  apply length_filter_or
  intro d _ hc
  have h1 : d.get key = g := by simpa [strictEq] using hc.1
  have h2 : d.get key ∈ gs := by simpa using hc.2
  exact hg (h1 ▸ h2)

theorem groupMetrics_count_sum (data : List Record) (key : String) (groups : List JsVal)
    (hnd : groups.Nodup) :
    ((groupMetrics data key groups).map (fun r => r.count)).sum
      = (data.filter (fun d => decide (d.get key ∈ groups))).length := by
  induction groups with
  | nil => simp [groupMetrics]
  | cons g gs ih =>
    rw [List.nodup_cons] at hnd
    rw [groupMetrics_cons_count, filter_mem_cons_length data key g gs hnd.1, ih hnd.2]

/-- C16: for a category list without duplicates, the counts of the rows of
`groupMetrics` add up to the number of records whose key value occurs in
`groups`; this never exceeds `data.length` and equals it exactly when every
record's key value is one of `groups`; and for every row the four confusion
counts `tp`, `fp`, `fn`, `tn` computed from its members add up to its `count`. -/
theorem groupMetrics_partition (data : List Record) (key : String) (groups : List JsVal)
    (hnd : groups.Nodup) :
    ((groupMetrics data key groups).map (fun r => r.count)).sum
        = (data.filter (fun d => decide (d.get key ∈ groups))).length ∧
      ((groupMetrics data key groups).map (fun r => r.count)).sum ≤ data.length ∧
      (((groupMetrics data key groups).map (fun r => r.count)).sum = data.length ↔
        ∀ d ∈ data, d.get key ∈ groups) ∧
      ∀ row ∈ groupMetrics data key groups,
        ((groupMembers data key row.group).filter (fun d => d.highRisk && d.actualBad)).length
          + ((groupMembers data key row.group).filter (fun d => d.highRisk && !d.actualBad)).length
          + ((groupMembers data key row.group).filter (fun d => !d.highRisk && d.actualBad)).length
          + ((groupMembers data key row.group).filter (fun d => !d.highRisk && !d.actualBad)).length
          = row.count := by
  have hsum := groupMetrics_count_sum data key groups hnd
  refine ⟨hsum, ?_, ?_, ?_⟩
  · rw [hsum]
    exact List.length_filter_le _ data
  · rw [hsum, List.filter_length_eq_length]
    constructor
    · intro hall d hd
      simpa using hall d hd
    · intro hall d hd
      simpa using hall d hd
  · intro row hrow
    obtain ⟨g, -, hg⟩ := mem_groupMetrics.mp hrow
    obtain ⟨-, hgrp, hcount, -⟩ := groupRow_fields hg
    subst hgrp
    rw [hcount]
    exact confusion_total _

/-- Witness of C16: `mixedData` with its three groups (all ten records are
counted), and with the groups `A` and `P` only (seven of ten). -/
theorem groupMetrics_partition_witness :
    (mixedGroups.Nodup ∧ [JsVal.str "A", JsVal.str "P"].Nodup) ∧
      ((groupMetrics mixedData "race" mixedGroups).map (fun r => r.count)).sum = 10 ∧
      ((groupMetrics mixedData "race" [JsVal.str "A", JsVal.str "P"]).map
        (fun r => r.count)).sum = 7 ∧
      ((groupMetrics mixedData "race" mixedGroups).map (fun r => r.count)).sum
        ≤ mixedData.length ∧
      ((groupMetrics mixedData "race" [JsVal.str "A", JsVal.str "P"]).map
        (fun r => r.count)).sum
        = (mixedData.filter
            (fun d => decide (d.get "race" ∈ [JsVal.str "A", JsVal.str "P"]))).length :=
  ⟨⟨by decide!, by decide!⟩, by decide!, by decide!,
    (groupMetrics_partition mixedData "race" mixedGroups (by decide!)).2.1,
    (groupMetrics_partition mixedData "race" [JsVal.str "A", JsVal.str "P"] (by decide!)).1⟩

/-! ## Theorems on the CSV ingestion -/

theorem foldl_set_get_of_not_mem (l : List (ℕ × String)) (f : ℕ → JsVal) (o : JsObject)
    (k : String) (hk : ∀ p ∈ l, p.2 ≠ k) :
    JsObject.get (l.foldl (fun row hi => JsObject.set row hi.2 (f hi.1)) o) k
      = JsObject.get o k := by
  induction l generalizing o with
  | nil => rfl
  | cons p ps ih =>
    rw [List.foldl_cons, ih _ (fun q hq => hk q (List.mem_cons_of_mem p hq)),
      JsObject.get_set_other _ _ _ _ (hk p (List.mem_cons_self p ps))]

theorem foldl_set_get_of_mem (l : List (ℕ × String)) (f : ℕ → JsVal) (o : JsObject)
    (i : ℕ) (k : String) (hmem : (i, k) ∈ l) (hnd : (l.map Prod.snd).Nodup)
    (hproto : k ≠ "__proto__") :
    JsObject.get (l.foldl (fun row hi => JsObject.set row hi.2 (f hi.1)) o) k = f i := by
  induction l generalizing o with
  | nil => exact absurd hmem (List.not_mem_nil _)
  | cons p ps ih =>
    rw [List.map_cons, List.nodup_cons] at hnd
    rw [List.foldl_cons]
    rcases List.mem_cons.mp hmem with hp | hps
    · subst hp
      have hk : ∀ q ∈ ps, q.2 ≠ k := by
        intro q hq hqk
        have hq' : q.2 ∈ ps.map Prod.snd := List.mem_map_of_mem Prod.snd hq
        rw [hqk] at hq'
        exact hnd.1 hq'
      rw [foldl_set_get_of_not_mem ps f _ k hk, JsObject.get_set_same _ _ _ hproto]
    · exact ih _ hps hnd.2

theorem csvRow_get_header (toNumber : String → Option ℚ) (headers : List String)
    (line : List Char) (u : ℚ) (i : ℕ) (h : String) (hi : headers.get? i = some h)
    (hnd : headers.Nodup) (h1 : h ≠ "highRisk") (h2 : h ≠ "actualBad")
    (h3 : h ≠ "__proto__") :
    JsObject.get (csvRow toNumber headers line u) h
      = csvCell toNumber ((jsSplit ',' line).get? i) := by
  unfold csvRow
  simp only []
  rw [JsObject.get_set_other _ "actualBad" h _ (Ne.symm h2),
    JsObject.get_set_other _ "highRisk" h _ (Ne.symm h1)]
  have hmem : (i, h) ∈ headers.enum :=
    List.mk_mem_enum_iff_getElem?.mpr (by rw [← List.get?_eq_getElem?]; exact hi)
  have hnd' : (headers.enum.map Prod.snd).Nodup := by
    rw [List.enum_map_snd]
    exact hnd
  exact foldl_set_get_of_mem headers.enum
    (fun j => csvCell toNumber ((jsSplit ',' line).get? j)) [] i h hmem hnd' h3

theorem csvRow_get_absent (toNumber : String → Option ℚ) (headers : List String)
    (line : List Char) (u : ℚ) (k : String) (hk : k ∉ headers)
    (h1 : k ≠ "highRisk") (h2 : k ≠ "actualBad") (h3 : k ∉ objectPrototypeNames) :
    JsObject.get (csvRow toNumber headers line u) k = JsVal.undefined := by
  unfold csvRow
  simp only []
  rw [JsObject.get_set_other _ "actualBad" k _ (Ne.symm h2),
    JsObject.get_set_other _ "highRisk" k _ (Ne.symm h1)]
  have hk' : ∀ p ∈ headers.enum, p.2 ≠ k := by
    intro p hp hpk
    have hp' : p.2 ∈ headers.enum.map Prod.snd := List.mem_map_of_mem Prod.snd hp
    rw [List.enum_map_snd, hpk] at hp'
    exact hk hp'
  have hempty : JsObject.get [] k = JsVal.undefined := by
    unfold JsObject.get
    rw [if_neg h3]
  rw [← hempty]
  exact foldl_set_get_of_not_mem headers.enum
    (fun j => csvCell toNumber ((jsSplit ',' line).get? j)) [] k hk'

theorem csvRows_eq (toNumber : String → Option ℚ) (text : List Char) (rnd : ℕ → ℚ) :
    csvRows toNumber text rnd
      = ((csvLines text).drop 1).enum.map
          (fun il => csvRow toNumber (csvHeaders text) il.2 (rnd il.1)) :=
  rfl

theorem csvRows_length (toNumber : String → Option ℚ) (text : List Char) (rnd : ℕ → ℚ) :
    (csvRows toNumber text rnd).length = (csvLines text).length - 1 := by
  rw [csvRows_eq, List.length_map, List.enum_length, List.length_drop]

theorem csvRows_get? (toNumber : String → Option ℚ) (text : List Char) (rnd : ℕ → ℚ) (j : ℕ) :
    (csvRows toNumber text rnd).get? j
      = ((csvLines text).get? (j + 1)).map
          (fun line => csvRow toNumber (csvHeaders text) line (rnd j)) := by
  rw [csvRows_eq]
  simp only [List.get?_eq_getElem?, List.getElem?_map, List.getElem?_enum, List.getElem?_drop,
    Nat.add_comm 1 j]
  cases (csvLines text)[j + 1]? <;> rfl

/-- C12, as stated, fails at five uploads. With two columns named `a`, the
first header is `a` and the first cell parses as `1`, yet the record maps `a`
to `2`. With a column named `highRisk`, its cell `yes` is replaced by the
derived flag. With a column named `__proto__`, its cell `x` is not stored: the
record still reads the inherited prototype under that name. With a data line
shorter than the header, `riskScore` is `undefined`, neither a number nor a
string. A text ending in an empty line splits into three pieces after the
header and yields one record. -/
theorem csv_header_cell_mismatch :
    ((csvHeaders duplicateCsv).get? 0 = some "a" ∧
        ((csvLines duplicateCsv).get? 1).map
            (fun line => csvCell decimalToNumber ((jsSplit ',' line).get? 0))
          = some (JsVal.num 1) ∧
        (csvRows decimalToNumber duplicateCsv (fun _ => 0.5)).map
            (fun row => JsObject.get row "a") = [JsVal.num 2]) ∧
      ((csvHeaders derivedNameCsv).get? 0 = some "highRisk" ∧
        ((csvLines derivedNameCsv).get? 1).map
            (fun line => csvCell decimalToNumber ((jsSplit ',' line).get? 0))
          = some (JsVal.str "yes") ∧
        (csvRows decimalToNumber derivedNameCsv (fun _ => 0.5)).map
            (fun row => JsObject.get row "highRisk") = [JsVal.bool true]) ∧
      ((csvHeaders protoCsv).get? 0 = some "__proto__" ∧
        ((csvLines protoCsv).get? 1).map
            (fun line => csvCell decimalToNumber ((jsSplit ',' line).get? 0))
          = some (JsVal.str "x") ∧
        (csvRows decimalToNumber protoCsv (fun _ => 0.5)).map
            (fun row => JsObject.get row "__proto__") = [JsVal.inherited "__proto__"]) ∧
      ((csvHeaders shortLineCsv).get? 1 = some "riskScore" ∧
        (csvRows decimalToNumber shortLineCsv (fun _ => 0.5)).map
            (fun row => JsObject.get row "riskScore") = [JsVal.undefined]) ∧
      ((jsSplit '\n' trailingCsv).length - 1 = 3 ∧
        (csvRows decimalToNumber trailingCsv (fun _ => 0.5)).length = 1) := by
  decide!

/-- C12 (amended): with `lines` the lines of the text after trimming its
leading and trailing white space, `handleCSV` builds one record per line after
the first, in line order; when the trimmed headers are pairwise distinct, a
record maps the `i`-th header, unless it is `highRisk`, `actualBad` or
`__proto__`, to the `i`-th cell of its line: a number when the cell converts to one, the trimmed
string otherwise, `undefined` when the line has no `i`-th cell; `highRisk` is
derived from the record's `riskScore`. The upload
`race,riskScore\nWhite,70\nBlack,40` gives two records with `race` the strings
`White`, `Black`, `riskScore` the numbers `70`, `40` and `highRisk` true,
false, whatever the random draws. -/
theorem csvRows_records (toNumber : String → Option ℚ) (text : List Char) (rnd : ℕ → ℚ) :
    (csvRows toNumber text rnd).length = (csvLines text).length - 1 ∧
      (∀ j, (csvRows toNumber text rnd).get? j
        = ((csvLines text).get? (j + 1)).map
            (fun line => csvRow toNumber (csvHeaders text) line (rnd j))) ∧
      (∀ (line : List Char) (u : ℚ) (i : ℕ) (h : String),
        (csvHeaders text).Nodup → (csvHeaders text).get? i = some h →
        h ≠ "highRisk" → h ≠ "actualBad" → h ≠ "__proto__" →
        JsObject.get (csvRow toNumber (csvHeaders text) line u) h
          = csvCell toNumber ((jsSplit ',' line).get? i)) ∧
      ((∀ s q, toNumber (String.mk s) = some q → csvCell toNumber (some s) = JsVal.num q) ∧
        (∀ s, toNumber (String.mk s) = none →
          csvCell toNumber (some s) = JsVal.str (String.mk (jsTrim s))) ∧
        csvCell toNumber none = JsVal.undefined) ∧
      (∀ (line : List Char) (u : ℚ),
        JsObject.get (csvRow toNumber (csvHeaders text) line u) "highRisk"
          = JsVal.bool (jsGe toNumber
              (JsObject.get (csvRow toNumber (csvHeaders text) line u) "riskScore") 65)) ∧
      (∀ rnd' : ℕ → ℚ,
        (csvRows decimalToNumber witnessCsv rnd').map
            (fun row => (JsObject.get row "race", JsObject.get row "riskScore",
              JsObject.get row "highRisk"))
          = [(JsVal.str "White", JsVal.num 70, JsVal.bool true),
             (JsVal.str "Black", JsVal.num 40, JsVal.bool false)]) := by
  refine ⟨csvRows_length toNumber text rnd, csvRows_get? toNumber text rnd, ?_, ⟨?_, ?_, rfl⟩,
    ?_, ?_⟩
  · intro line u i h hnd hi h1 h2 h3
    exact csvRow_get_header toNumber (csvHeaders text) line u i h hi hnd h1 h2 h3
  · intro s q hq
    unfold csvCell
    simp only []
    rw [hq]
  · intro s hs
    unfold csvCell
    simp only []
    rw [hs]
  · intro line u
    exact csvRow_highRisk toNumber (csvHeaders text) line u
  · intro rnd'
    rfl

/-- C13 (code evaluated at the failing input): the rows ingested from
`race,riskScore\nWhite,70\nBlack,40` have no `id` (it reads `undefined` in
both), whereas the records of `generateDataset(2)` have the ids `0` and `1`;
in general a row has no `id` unless the upload has a column of that name. -/
theorem csvRows_without_id :
    ("id" ∉ csvHeaders witnessCsv ∧
        (csvRows decimalToNumber witnessCsv (fun _ => 0.5)).map
            (fun row => JsObject.get row "id") = [JsVal.undefined, JsVal.undefined] ∧
        (generateDataset 2 sampleDraws).map (fun r => r.get "id")
          = [JsVal.num 0, JsVal.num 1]) ∧
      ∀ (toNumber : String → Option ℚ) (text : List Char) (rnd : ℕ → ℚ),
        "id" ∉ csvHeaders text →
        ∀ row ∈ csvRows toNumber text rnd, JsObject.get row "id" = JsVal.undefined := by
  refine ⟨by decide!, ?_⟩
  intro toNumber text rnd hid row hrow
  rw [csvRows_eq, List.mem_map] at hrow
  obtain ⟨il, -, rfl⟩ := hrow
  exact csvRow_get_absent toNumber (csvHeaders text) il.2 (rnd il.1) "id" hid
    (by decide) (by decide) (by decide)

/-- C14: whenever `handleCSV` signals an ingestion failure (shows its alert),
the state is the previous state: `uploadedData`, and so the active dataset,
keep their value. An input whose rows cannot be computed (the `try` block
throws) is signalled so; on completion the whole list of rows is adopted, so
`uploadedData` is always either its previous value or the complete list of
rows of a text, never a part of one. -/
theorem handleCSV_atomic (toNumber : String → Option ℚ) (st : AppState)
    (file : Option FileResult) (rnd : ℕ → ℚ)
    (hfail : (handleCSV toNumber st file rnd).2 ≠ none) :
    handleCSV toNumber st file rnd = (st, some alertMessage) ∧
      (handleCSV toNumber st file rnd).1.uploadedData = st.uploadedData ∧
      active (handleCSV toNumber st file rnd).1 = active st ∧
      (∀ result : FileResult, tryRows toNumber result rnd = Except.error () →
        handleCSV toNumber st (some result) rnd = (st, some alertMessage)) ∧
      (∀ text : List Char,
        handleCSV toNumber st (some (FileResult.text text)) rnd
          = ({ st with uploadedData := some (csvRows toNumber text rnd) }, none)) ∧
      (∀ f : Option FileResult,
        (handleCSV toNumber st f rnd).1.uploadedData = st.uploadedData ∨
        ∃ text, (handleCSV toNumber st f rnd).1.uploadedData
          = some (csvRows toNumber text rnd)) := by
  have hcases : ∀ f : Option FileResult,
      handleCSV toNumber st f rnd = (st, none) ∨
      handleCSV toNumber st f rnd = (st, some alertMessage) ∨
      ∃ text, handleCSV toNumber st f rnd
        = ({ st with uploadedData := some (csvRows toNumber text rnd) }, none) := by
    intro f
    cases f with
    | none => exact Or.inl rfl
    | some result =>
      cases result with
      | text s => exact Or.inr (Or.inr ⟨s, rfl⟩)
      | notText => exact Or.inr (Or.inl rfl)
  have hsame : handleCSV toNumber st file rnd = (st, some alertMessage) := by
    rcases hcases file with h | h | ⟨text, h⟩
    · rw [h] at hfail
      exact absurd rfl hfail
    · exact h
    · rw [h] at hfail
      exact absurd rfl hfail
  refine ⟨hsame, ?_, ?_, ?_, ?_, ?_⟩
  · rw [hsame]
  · rw [hsame]
  · intro result hres
    unfold handleCSV
    simp only []
    rw [hres]
    rfl
  · intro text
    rfl
  · intro f
    rcases hcases f with h | h | ⟨text, h⟩
    · exact Or.inl (by rw [h])
    · exact Or.inl (by rw [h])
    · exact Or.inr ⟨text, by rw [h]⟩

/-- Witness of C14: a result without text, arriving while an earlier upload
is active. -/
theorem handleCSV_atomic_witness :
    (handleCSV decimalToNumber sampleState (some FileResult.notText) (fun _ => 0.5)).2 ≠ none ∧
      handleCSV decimalToNumber sampleState (some FileResult.notText) (fun _ => 0.5)
        = (sampleState, some alertMessage) ∧
      active (handleCSV decimalToNumber sampleState (some FileResult.notText)
        (fun _ => 0.5)).1 = active sampleState :=
  ⟨by decide!,
    (handleCSV_atomic decimalToNumber sampleState (some FileResult.notText) (fun _ => 0.5)
      (by decide!)).1,
    (handleCSV_atomic decimalToNumber sampleState (some FileResult.notText) (fun _ => 0.5)
      (by decide!)).2.2.1⟩

/-! ## Theorems on `groupMetrics` over plain objects -/

theorem isNum_eq_true {v : JsVal} (h : isNum v = true) : ∃ q, v = JsVal.num q := by
  cases v with
  | num q => exact ⟨q, rfl⟩
  | undefined => exact absurd h (by decide)
  | bool b => exact absurd h (by simp [isNum])
  | str x => exact absurd h (by simp [isNum])
  | inherited n => exact absurd h (by simp [isNum])

theorem foldl_jsPlus_num (toStr : JsVal → String) (s : List JsObject) (a : ℚ)
    (hs : ∀ d ∈ s, isNum (JsObject.get d "riskScore") = true) :
    s.foldl (fun acc d => jsPlus toStr acc (JsObject.get d "riskScore")) (JsAcc.num (some a))
      = JsAcc.num (some (a + (s.map scoreOf).sum)) := by
  induction s generalizing a with
  | nil => simp
  | cons d ds ih =>
    obtain ⟨q, hq⟩ := isNum_eq_true (hs d (List.mem_cons_self d ds))
    have hscore : scoreOf d = q := by
      unfold scoreOf
      rw [hq]
    have hstep : jsPlus toStr (JsAcc.num (some a)) (JsObject.get d "riskScore")
        = JsAcc.num (some (a + q)) := by
      rw [hq]
      rfl
    rw [List.foldl_cons, hstep, ih (a + q) (fun x hx => hs x (List.mem_cons_of_mem d hx)),
      List.map_cons, List.sum_cons, hscore, add_assoc]

theorem groupRowObj_eq_none_iff (toNumber : String → Option ℚ) (toStr : JsVal → String)
    (data : List JsObject) (key : String) (g : JsVal) :
    groupRowObj toNumber toStr data key g = none ↔ objMembers data key g = [] := by
  unfold groupRowObj objMembers
  simp only []
  split_ifs with h
  · simp [List.length_eq_zero.mp h]
  · simp only [false_iff, reduceCtorEq]
    intro h0
    exact h (by rw [h0]; rfl)

theorem groupRowObj_fields {toNumber : String → Option ℚ} {toStr : JsVal → String}
    {data : List JsObject} {key : String} {g : JsVal} {row : GroupStatObj}
    (h : groupRowObj toNumber toStr data key g = some row) :
    objMembers data key g ≠ [] ∧ row.group = g ∧
      row.count = (objMembers data key g).length ∧
      row.avgScore = (jsDivNat toNumber
          ((objMembers data key g).foldl
            (fun a d => jsPlus toStr a (JsObject.get d "riskScore")) (JsAcc.num (some 0)))
          (objMembers data key g).length).map (fun x => toFixed x 1) ∧
      row.highRiskRate = toFixed
        (percentWhere (fun d => truthy (JsObject.get d "highRisk")) (objMembers data key g)) 1 := by
  have hne : objMembers data key g ≠ [] := by
    intro h0
    rw [(groupRowObj_eq_none_iff toNumber toStr data key g).mpr h0] at h
    exact Option.noConfusion h
  have hlen : ¬ (data.filter (fun d => strictEq (JsObject.get d key) g)).length = 0 :=
    fun h0 => hne (List.length_eq_zero.mp h0)
  unfold groupRowObj at h
  simp only [] at h
  rw [if_neg hlen] at h
  have hrow := (Option.some.inj h).symm
  subst hrow
  refine ⟨hne, rfl, rfl, rfl, ?_⟩
  simp only [percentWhere, objMembers]
  congr 1
  ring

theorem mem_groupMetricsObj {toNumber : String → Option ℚ} {toStr : JsVal → String}
    {data : List JsObject} {key : String} {groups : List JsVal} {row : GroupStatObj} :
    row ∈ groupMetricsObj toNumber toStr data key groups
      ↔ ∃ g ∈ groups, groupRowObj toNumber toStr data key g = some row := by
  unfold groupMetricsObj
  rw [List.reduceOption_mem_iff]
  simp [List.mem_map]

/-- C2, as stated, fails on an upload: the rows ingested from
`race,riskScore\nWhite\nWhite,70` give one row for `White` whose two members
have the scores `undefined` and `70`; its `avgScore` is `NaN`, not a mean
rounded to 1 decimal. -/
theorem avgScore_nan_on_missing_score :
    groupMetricsObj decimalToNumber sampleToStr
        (csvRows decimalToNumber missingScoreCsv (fun _ => 0.5)) "race" (RACES.map JsVal.str)
        = [missingScoreRow] ∧
      (objMembers (csvRows decimalToNumber missingScoreCsv (fun _ => 0.5)) "race"
          missingScoreRow.group).map (fun d => JsObject.get d "riskScore")
        = [JsVal.undefined, JsVal.num 70] ∧
      missingScoreRow.count = 2 ∧ missingScoreRow.avgScore = none := by
  decide!

/-- C2 (amended): in every row returned by `groupMetrics`, `count` is the
number of records whose key value is the row's group (at least one),
`highRiskRate` is the percentage of those records with a true `highRisk`
rounded to 1 decimal, and, whenever every one of those records has a number
as `riskScore`, `avgScore` is a number, the mean `riskScore` of those records
rounded to 1 decimal. -/
theorem groupMetricsObj_count_avg_rate (toNumber : String → Option ℚ) (toStr : JsVal → String)
    (data : List JsObject) (key : String) (groups : List JsVal) (row : GroupStatObj)
    (h : row ∈ groupMetricsObj toNumber toStr data key groups) :
    row.group ∈ groups ∧
      row.count = (objMembers data key row.group).length ∧ 0 < row.count ∧
      RoundedTo 1
        (percentWhere (fun d => truthy (JsObject.get d "highRisk"))
          (objMembers data key row.group))
        row.highRiskRate ∧
      ((∀ d ∈ objMembers data key row.group, isNum (JsObject.get d "riskScore") = true) →
        ∃ v : ℚ, row.avgScore = some v ∧
          RoundedTo 1 (meanScoreObj (objMembers data key row.group)) v) := by
  obtain ⟨g, hg, hrow⟩ := mem_groupMetricsObj.mp h
  obtain ⟨hne, hgrp, hcount, havg, hrate⟩ := groupRowObj_fields hrow
  subst hgrp
  refine ⟨hg, hcount, ?_, ?_, ?_⟩
  · rw [hcount]
    exact List.length_pos.mpr hne
  · rw [hrate]
    exact toFixed_rounded _ _
  · intro hnum
    refine ⟨toFixed (meanScoreObj (objMembers data key row.group)) 1, ?_, toFixed_rounded _ _⟩
    rw [havg, foldl_jsPlus_num toStr _ 0 hnum]
    simp only [jsDivNat, Option.map_some', zero_add, meanScoreObj]

/-- Witness of C2 (amended): the row of `White` for the rows ingested from
`race,riskScore\nWhite,70\nBlack,40`. -/
theorem groupMetricsObj_count_avg_rate_witness :
    witnessRowWhite ∈ groupMetricsObj decimalToNumber sampleToStr
        (csvRows decimalToNumber witnessCsv (fun _ => 0.5)) "race" (RACES.map JsVal.str) ∧
      witnessRowWhite.count = 1 ∧
      ∃ v : ℚ, witnessRowWhite.avgScore = some v ∧
        RoundedTo 1
          (meanScoreObj (objMembers (csvRows decimalToNumber witnessCsv (fun _ => 0.5)) "race"
            witnessRowWhite.group)) v :=
  ⟨by decide!, rfl,
    (groupMetricsObj_count_avg_rate decimalToNumber sampleToStr
      (csvRows decimalToNumber witnessCsv (fun _ => 0.5)) "race" (RACES.map JsVal.str)
      witnessRowWhite (by decide!)).2.2.2.2 (by decide!)⟩

/-! ## Generated records as plain objects -/

theorem Record.get_toObject (d : Record) (key : String) :
    JsObject.get d.toObject key = d.get key := by
  unfold Record.get Record.toObject
  simp only [JsObject.get]
  by_cases h1 : key = "id"
  · subst h1; simp
  by_cases h2 : key = "race"
  · subst h2; simp
  by_cases h3 : key = "gender"
  · subst h3; simp
  by_cases h4 : key = "ageGroup"
  · subst h4; simp
  by_cases h5 : key = "riskScore"
  · subst h5; simp
  by_cases h6 : key = "highRisk"
  · subst h6; simp
  by_cases h7 : key = "actualBad"
  · subst h7; simp
  simp [h1, h2, h3, h4, h5, h6, h7, Ne.symm h1, Ne.symm h2, Ne.symm h3, Ne.symm h4, Ne.symm h5,
    Ne.symm h6, Ne.symm h7]

theorem filter_map_toObject (p : JsObject → Bool) (data : List Record) :
    (data.map Record.toObject).filter p
      = (data.filter (fun d => p d.toObject)).map Record.toObject := by
  induction data with
  | nil => rfl
  | cons d ds ih =>
    simp only [List.map_cons, List.filter_cons]
    cases p d.toObject <;> simp [ih]

theorem foldl_jsPlus_toObject (toStr : JsVal → String) (s : List Record) (a : ℚ) :
    (s.map Record.toObject).foldl
        (fun acc d => jsPlus toStr acc (JsObject.get d "riskScore")) (JsAcc.num (some a))
      = JsAcc.num (some (s.foldl (fun a d => a + d.riskScore) a)) := by
  induction s generalizing a with
  | nil => rfl
  | cons d ds ih =>
    have hstep : jsPlus toStr (JsAcc.num (some a)) (JsObject.get d.toObject "riskScore")
        = JsAcc.num (some (a + d.riskScore)) := by
      rw [Record.get_toObject]
      rfl
    rw [List.map_cons, List.foldl_cons, hstep, ih, List.foldl_cons]

/-- On generated records seen as plain objects, the callback of `groupMetrics`
computes the row that it computes on the records, with a numeric `avgScore`. -/
theorem groupRowObj_toObject (toNumber : String → Option ℚ) (toStr : JsVal → String)
    (data : List Record) (key : String) (g : JsVal) :
    groupRowObj toNumber toStr (data.map Record.toObject) key g
      = (groupRow data key g).map GroupStat.toObj := by
  have hfilter : (data.map Record.toObject).filter (fun d => strictEq (JsObject.get d key) g)
      = (data.filter (fun d => strictEq (d.get key) g)).map Record.toObject := by
    rw [filter_map_toObject]
    simp only [Record.get_toObject]
  have hsub : ∀ (p : JsObject → Bool) (q : Record → Bool) (s : List Record),
      (∀ d, p d.toObject = q d) →
      ((s.map Record.toObject).filter p).length = (s.filter q).length := by
    intro p q s hpq
    rw [filter_map_toObject, List.length_map]
    simp only [hpq]
  have hhr : ∀ d : Record, truthy (JsObject.get d.toObject "highRisk") = d.highRisk := by
    intro d
    rw [Record.get_toObject]
    rfl
  have hab : ∀ d : Record, truthy (JsObject.get d.toObject "actualBad") = d.actualBad := by
    intro d
    rw [Record.get_toObject]
    rfl
  have h1 := fun s => hsub (fun d => truthy (JsObject.get d "highRisk"))
    (fun d => d.highRisk) s hhr
  have h2 := fun s => hsub
    (fun d => truthy (JsObject.get d "highRisk") && truthy (JsObject.get d "actualBad"))
    (fun d => d.highRisk && d.actualBad) s (fun d => by simp only [hhr, hab])
  have h3 := fun s => hsub
    (fun d => truthy (JsObject.get d "highRisk") && !truthy (JsObject.get d "actualBad"))
    (fun d => d.highRisk && !d.actualBad) s (fun d => by simp only [hhr, hab])
  have h4 := fun s => hsub
    (fun d => !truthy (JsObject.get d "highRisk") && truthy (JsObject.get d "actualBad"))
    (fun d => !d.highRisk && d.actualBad) s (fun d => by simp only [hhr, hab])
  have h5 := fun s => hsub
    (fun d => !truthy (JsObject.get d "highRisk") && !truthy (JsObject.get d "actualBad"))
    (fun d => !d.highRisk && !d.actualBad) s (fun d => by simp only [hhr, hab])
  unfold groupRowObj groupRow
  simp only []
  rw [hfilter, List.length_map]
  simp only [h1, h2, h3, h4, h5, foldl_jsPlus_toObject, jsDivNat, Option.map_some']
  by_cases h0 : (data.filter (fun d => strictEq (d.get key) g)).length = 0
  · rw [if_pos h0, if_pos h0]
    rfl
  · rw [if_neg h0, if_neg h0]
    rfl

/-- On generated records seen as plain objects, `groupMetrics` returns the rows
that it returns on the records. -/
theorem groupMetricsObj_toObject (toNumber : String → Option ℚ) (toStr : JsVal → String)
    (data : List Record) (key : String) (groups : List JsVal) :
    groupMetricsObj toNumber toStr (data.map Record.toObject) key groups
      = (groupMetrics data key groups).map GroupStat.toObj := by
  unfold groupMetricsObj groupMetrics
  induction groups with
  | nil => rfl
  | cons g gs ih =>
    rw [List.map_cons, List.map_cons, groupRowObj_toObject]
    cases groupRow data key g with
    | none =>
      rw [Option.map_none', List.reduceOption_cons_of_none, List.reduceOption_cons_of_none]
      exact ih
    | some r =>
      rw [Option.map_some', List.reduceOption_cons_of_some, List.reduceOption_cons_of_some,
        List.map_cons, ih]

end BiasApp
